import Mathlib

/-!
Verification of the notes web application (`src/app.py`).

The development shallowly embeds the data model and the operations of the
application: the SQLite `notes` table becomes a list of `Note` records inside a
`Store`, the Flask form/query mappings become functions from keys to optional
string values, SQL `UPDATE`/`DELETE`/`SELECT` statements become explicit list
transformations, and the `ORDER BY` of the listing query becomes a boolean
comparison `note_le` used with insertion sort.  Machine-level aspects
(connection handling, HTML rendering, HTTP plumbing) are outside the embedded
fragment; error responses (`abort(404)`, validation re-renders) are embedded as
`Except` errors.
-/

/-- Allowed values of the `status` column (`STATUSES` in `app.py`). -/
def STATUSES : List String := ["todo", "in_progress", "done"]

/-- Allowed values of the `priority` column (`PRIORITIES` in `app.py`). -/
def PRIORITIES : List String := ["low", "medium", "high"]

/-- Allowed values of the `view` filter (`VIEWS` in `app.py`). -/
def VIEWS : List String := ["active", "archived", "trash"]

/-- Whitespace recognised by Python's `str.strip()` on the characters that can
appear here (space, tab, newline, carriage return, vertical tab, form feed). -/
def py_ws (c : Char) : Bool :=
  c = ' ' || c = '\t' || c = '\n' || c = '\r' || c = '\x0b' || c = '\x0c'

/-- Drop leading whitespace characters from a character list. -/
def dropws : List Char → List Char
  | [] => []
  | c :: cs => if py_ws c then dropws cs else c :: cs

/-- Python's `str.strip()`: remove whitespace from both ends of a string. -/
def py_strip (s : String) : String :=
  ⟨(dropws ((dropws s.data).reverse)).reverse⟩

/-- A raw request mapping (query string or form): keys to optional values;
models `request.args` / `request.form` access via `.get`. -/
def Args : Type := String → Option String

/-- Python's `mapping.get(key, default)` for string values. -/
def args_get (a : Args) (k d : String) : String := (a k).getD d

/-- The canonical filter record produced by `load_filters`. -/
structure Filters where
  q : String
  status : String
  priority : String
  category : String
  view : String
deriving DecidableEq

/-- Shallow embedding of `load_filters` (`app.py` lines 195-211): trim every
value, default blank category to "all", and whitelist status, priority and
view. -/
def load_filters (args : Args) : Filters :=
  let q := py_strip (args_get args "q" "")
  let status0 := py_strip (args_get args "status" "all")
  let priority0 := py_strip (args_get args "priority" "all")
  let category0 := py_strip (args_get args "category" "all")
  let view0 := py_strip (args_get args "view" "active")
  { q := q
    status := if ("all" :: STATUSES).contains status0 then status0 else "all"
    priority := if ("all" :: PRIORITIES).contains priority0 then priority0 else "all"
    category := if category0 = "" then "all" else category0
    view := if VIEWS.contains view0 then view0 else "active" }

/-- Re-submit a canonical filter record as a raw query mapping (each field
under its query-string key), to state idempotence of normalization. -/
def filters_to_args (f : Filters) : Args := fun k =>
  if k = "q" then some f.q
  else if k = "status" then some f.status
  else if k = "priority" then some f.priority
  else if k = "category" then some f.category
  else if k = "view" then some f.view
  else none

/-- A row of the `notes` table as maintained by the application's own
operations.  The INTEGER flag columns only ever hold 0 or 1 through the
embedded operations, so they are embedded as `Bool`; `due_date` is a nullable
TEXT column, embedded as `Option String`; the timestamps are embedded as
abstract clock values. -/
structure Note where
  id : Nat
  title : String
  content : String
  category : String
  status : String
  priority : String
  due_date : Option String
  is_pinned : Bool
  is_archived : Bool
  is_deleted : Bool
  created_at : Nat
  updated_at : Nat
deriving DecidableEq

/-- The persistent store: the rows of the `notes` table in rowid order plus
the next AUTOINCREMENT identifier. -/
structure Store where
  notes : List Note
  next_id : Nat
deriving DecidableEq

/-- The store of a freshly created database. -/
def empty_store : Store := ⟨[], 1⟩

/-- Errors of the embedded operations: `notFound` models `abort(404)`,
`invalid` models a validation failure re-rendered with status 400. -/
inductive NoteError where
  | notFound
  | invalid (msg : String)
deriving DecidableEq

/-- Decimal digit test for date characters. -/
def is_digit (c : Char) : Bool := '0' ≤ c && c ≤ '9'

/-- Value of a decimal digit character. -/
def digit_val (c : Char) : Nat := c.toNat - 48

/-- Gregorian leap-year rule, as used by Python's `datetime.date`. -/
def is_leap (y : Nat) : Bool := y % 4 = 0 && (y % 100 ≠ 0 || y % 400 = 0)

/-- Number of days of a month in a given year. -/
def days_in_month (y m : Nat) : Nat :=
  if m = 2 then (if is_leap y then 29 else 28)
  else if m = 4 || m = 6 || m = 9 || m = 11 then 30
  else 31

/-- Models Python's `date.fromisoformat` on the `YYYY-MM-DD` form: ten
characters, digits in the year, month and day positions, dashes between them,
year at least 1, month 1-12, day within the month's length. -/
def valid_iso_date (s : String) : Bool :=
  match s.data with
  | [y1, y2, y3, y4, h1, m1, m2, h2, d1, d2] =>
    is_digit y1 && is_digit y2 && is_digit y3 && is_digit y4 &&
    h1 = '-' && is_digit m1 && is_digit m2 && h2 = '-' &&
    is_digit d1 && is_digit d2 &&
    (let y := ((digit_val y1 * 10 + digit_val y2) * 10 + digit_val y3) * 10 + digit_val y4
     let m := digit_val m1 * 10 + digit_val m2
     let d := digit_val d1 * 10 + digit_val d2
     1 ≤ y && 1 ≤ m && m ≤ 12 && 1 ≤ d && d ≤ days_in_month y m)
  | _ => false

/-- Shallow embedding of `parse_due_date` (`app.py` lines 142-149): empty
input means no due date; a valid ISO date is kept (for a strict `YYYY-MM-DD`
input, `date.fromisoformat(raw).isoformat()` returns the input unchanged);
anything else produces the date-format error message. -/
def parse_due_date (raw : String) : Option String × Option String :=
  if raw = "" then (none, none)
  else if valid_iso_date raw then (some raw, none)
  else (none, some "Due date must be a valid date in YYYY-MM-DD format.")

/-- The validated field set produced by `normalize_note_form`. -/
structure NoteData where
  title : String
  content : String
  category : String
  status : String
  priority : String
  due_date : Option String
  is_pinned : Bool
deriving DecidableEq

/-- Python's `form.get("is_pinned") in {"on", "1", "true"}` (no default: a
missing key yields `None`, which is not in the set). -/
def pin_token (form : Args) : Bool :=
  match form "is_pinned" with
  | some v => v = "on" || v = "1" || v = "true"
  | none => false

/-- Shallow embedding of `normalize_note_form` (`app.py` lines 152-180). -/
def normalize_note_form (form : Args) : Except String NoteData :=
  let title := py_strip (args_get form "title" "")
  let content := py_strip (args_get form "content" "")
  let category0 := py_strip (args_get form "category" "general")
  let category := if category0 = "" then "general" else category0
  let status := py_strip (args_get form "status" "todo")
  let priority := py_strip (args_get form "priority" "medium")
  let due_raw := py_strip (args_get form "due_date" "")
  if title = "" then .error "Title is required."
  else if ¬ STATUSES.contains status then .error "Status is invalid."
  else if ¬ PRIORITIES.contains priority then .error "Priority is invalid."
  else
    match parse_due_date due_raw with
    | (_, some e) => .error e
    | (d, none) =>
      .ok { title := title, content := content, category := category,
            status := status, priority := priority, due_date := d,
            is_pinned := pin_token form }

/-- The `SELECT ... WHERE id = ?` lookup of `get_note_or_404` (`app.py` lines
346-370); `none` models `abort(404)`. -/
def get_note_or_404 (s : Store) (id : Nat) : Option Note :=
  s.notes.find? (fun n => n.id == id)

/-- The row inserted by `create_note`'s `INSERT` statement: flags and
timestamps take their column defaults. -/
def mk_note (id : Nat) (d : NoteData) (now : Nat) : Note :=
  { id := id, title := d.title, content := d.content, category := d.category,
    status := d.status, priority := d.priority, due_date := d.due_date,
    is_pinned := d.is_pinned, is_archived := false, is_deleted := false,
    created_at := now, updated_at := now }

/-- Shallow embedding of the `create_note` route (`app.py` lines 378-401):
validation first; on success one row is appended with the next identifier. -/
def create_note (s : Store) (form : Args) (now : Nat) : Except String Store :=
  match normalize_note_form form with
  | .error e => .error e
  | .ok d => .ok ⟨s.notes ++ [mk_note s.next_id d now], s.next_id + 1⟩

/-- Shallow embedding of the `update_note` route (`app.py` lines 421-476):
404 when the row is missing or trashed, then validation, then the `UPDATE`
overwriting the mutable columns and `updated_at`. -/
def update_note (s : Store) (id : Nat) (form : Args) (now : Nat) :
    Except NoteError Store :=
  match get_note_or_404 s id with
  | none => .error .notFound
  | some n =>
    if n.is_deleted then .error .notFound
    else
      match normalize_note_form form with
      | .error e => .error (.invalid e)
      | .ok d =>
        .ok ⟨s.notes.map (fun m =>
              if m.id = id then
                { m with title := d.title, content := d.content,
                         category := d.category, status := d.status,
                         priority := d.priority, due_date := d.due_date,
                         is_pinned := d.is_pinned, updated_at := now }
              else m), s.next_id⟩

/-- Shallow embedding of the `toggle_pin` route (`app.py` lines 479-491). -/
def toggle_pin (s : Store) (id : Nat) (now : Nat) : Except NoteError Store :=
  match get_note_or_404 s id with
  | none => .error .notFound
  | some n =>
    if n.is_deleted then .error .notFound
    else
      .ok ⟨s.notes.map (fun m =>
            if m.id = id then { m with is_pinned := !n.is_pinned, updated_at := now }
            else m), s.next_id⟩

/-- Shallow embedding of the `toggle_archive` route (`app.py` lines 494-511). -/
def toggle_archive (s : Store) (id : Nat) (now : Nat) : Except NoteError Store :=
  match get_note_or_404 s id with
  | none => .error .notFound
  | some n =>
    if n.is_deleted then .error .notFound
    else
      .ok ⟨s.notes.map (fun m =>
            if m.id = id then { m with is_archived := !n.is_archived, updated_at := now }
            else m), s.next_id⟩

/-- Shallow embedding of the `move_to_trash` route (`app.py` lines 514-534):
404 when missing or already trashed; otherwise set `is_deleted` and clear
`is_archived` and `is_pinned`. -/
def move_to_trash (s : Store) (id : Nat) (now : Nat) : Except NoteError Store :=
  match get_note_or_404 s id with
  | none => .error .notFound
  | some n =>
    if n.is_deleted then .error .notFound
    else
      .ok ⟨s.notes.map (fun m =>
            if m.id = id then
              { m with is_deleted := true, is_archived := false,
                       is_pinned := false, updated_at := now }
            else m), s.next_id⟩

/-- Shallow embedding of the `restore_note` route (`app.py` lines 537-556):
404 when the row is missing; a redirect with no change when it is not trashed;
otherwise clear `is_deleted` and `is_archived`. -/
def restore_note (s : Store) (id : Nat) (now : Nat) : Except NoteError Store :=
  match get_note_or_404 s id with
  | none => .error .notFound
  | some n =>
    if !n.is_deleted then .ok s
    else
      .ok ⟨s.notes.map (fun m =>
            if m.id = id then
              { m with is_deleted := false, is_archived := false, updated_at := now }
            else m), s.next_id⟩

/-- Shallow embedding of the `purge_note` route (`app.py` lines 559-567):
404 when the row is missing; otherwise `DELETE ... WHERE id = ?`. -/
def purge_note (s : Store) (id : Nat) : Except NoteError Store :=
  match get_note_or_404 s id with
  | none => .error .notFound
  | some _ => .ok ⟨s.notes.filter (fun m => !(m.id == id)), s.next_id⟩

instance {ε α : Type} [DecidableEq ε] [DecidableEq α] : DecidableEq (Except ε α) :=
  fun a b =>
  match a, b with
  | .error e, .error f =>
    if h : e = f then isTrue (by rw [h]) else isFalse (fun hh => h (Except.error.inj hh))
  | .error _, .ok _ => isFalse (fun hh => Except.noConfusion hh)
  | .ok _, .error _ => isFalse (fun hh => Except.noConfusion hh)
  | .ok x, .ok y =>
    if h : x = y then isTrue (by rw [h]) else isFalse (fun hh => h (Except.ok.inj hh))

/-- Store states reachable from an empty database through the public write
operations of the application. -/
inductive Reachable : Store → Prop where
  | empty : Reachable empty_store
  | create {s form now s'} : Reachable s → create_note s form now = .ok s' → Reachable s'
  | update {s id form now s'} : Reachable s → update_note s id form now = .ok s' → Reachable s'
  | pin {s id now s'} : Reachable s → toggle_pin s id now = .ok s' → Reachable s'
  | archive {s id now s'} : Reachable s → toggle_archive s id now = .ok s' → Reachable s'
  | trash {s id now s'} : Reachable s → move_to_trash s id now = .ok s' → Reachable s'
  | restore {s id now s'} : Reachable s → restore_note s id now = .ok s' → Reachable s'
  | purge {s id s'} : Reachable s → purge_note s id = .ok s' → Reachable s'

/-- SQLite's default ASCII case folding: upper-case ASCII letters fold to
lower case, all other characters are unchanged. -/
def ascii_lower (c : Char) : Char :=
  if 'A' ≤ c && c ≤ 'Z' then Char.ofNat (c.toNat + 32) else c

/-- Character comparison of SQLite `LIKE`: case-insensitive on ASCII. -/
def like_eq (p c : Char) : Bool := ascii_lower p = ascii_lower c

/-- Test a predicate on every suffix of a character list (used for `%`,
which may absorb any prefix of the remaining text). -/
def tails_any (f : List Char → Bool) : List Char → Bool
  | [] => f []
  | c :: cs => f (c :: cs) || tails_any f cs

/-- SQLite `LIKE` pattern matching over whole strings: `%` matches any
sequence of characters, `_` matches exactly one character, every other
pattern character matches ASCII-case-insensitively. -/
def like_match : List Char → List Char → Bool
  | [], s => s.isEmpty
  | p :: ps, s =>
    if p = '%' then tails_any (like_match ps) s
    else
      match s with
      | [] => false
      | c :: cs => (p = '_' || like_eq p c) && like_match ps cs

/-- The `LIKE` pattern built by `build_where_clause` for a text query:
`f"%{q}%"`, with no escaping of wildcard characters in `q`. -/
def wildcard_pat (q : String) : List Char := '%' :: (q.data ++ ['%'])

/-- The view clause of `build_where_clause` (`app.py` lines 218-223). -/
def view_clause (view : String) (n : Note) : Bool :=
  if view = "trash" then n.is_deleted
  else if view = "archived" then !n.is_deleted && n.is_archived
  else !n.is_deleted && !n.is_archived

/-- The text clause of `build_where_clause` (`app.py` lines 225-228): the
same wildcard pattern is bound for the three `LIKE` tests. -/
def text_clause (q : String) (n : Note) : Bool :=
  like_match (wildcard_pat q) n.title.data ||
  like_match (wildcard_pat q) n.content.data ||
  like_match (wildcard_pat q) n.category.data

/-- Shallow embedding of `build_where_clause` (`app.py` lines 214-242)
together with the evaluation of the produced SQL predicate on a row: the
conjunction of the view clause, the optional text clause and the optional
status, priority and category equality clauses. -/
def build_where_clause (f : Filters) (n : Note) : Bool :=
  view_clause f.view n &&
  (f.q = "" || text_clause f.q n) &&
  (f.status = "all" || n.status = f.status) &&
  (f.priority = "all" || n.priority = f.priority) &&
  (f.category = "all" || n.category = f.category)

/-- Strict lexicographic comparison of character lists, by code point; this
is SQLite's BINARY text ordering (UTF-8 byte order agrees with code-point
order). -/
def chars_lt : List Char → List Char → Bool
  | [], [] => false
  | [], _ :: _ => true
  | _ :: _, [] => false
  | a :: as, b :: bs =>
    decide (a.toNat < b.toNat) || (a = b && chars_lt as bs)

/-- Strict ordering on the nullable `due_date` column under `ASC`: SQLite
sorts NULL before every text value. -/
def opt_lt : Option String → Option String → Bool
  | none, none => false
  | none, some _ => true
  | some _, none => false
  | some a, some b => chars_lt a.data b.data

/-- Lexicographic chaining for one sort key of `ORDER BY`: strictly smaller
first component, or equal first components and the remaining keys decide. -/
def nat_then (x y : Nat) (rest : Bool) : Bool :=
  decide (x < y) || (decide (x = y) && rest)

/-- Lexicographic chaining on the nullable due-date key. -/
def opt_then (x y : Option String) (rest : Bool) : Bool :=
  opt_lt x y || (decide (x = y) && rest)

/-- First `ORDER BY` key: `is_pinned DESC`, pinned rows first. -/
def pin_key (n : Note) : Nat := if n.is_pinned then 0 else 1

/-- Second `ORDER BY` key: `CASE priority WHEN 'high' THEN 0 WHEN 'medium'
THEN 1 ELSE 2 END`. -/
def priority_key (n : Note) : Nat :=
  if n.priority = "high" then 0 else if n.priority = "medium" then 1 else 2

/-- Third `ORDER BY` key: `CASE WHEN due_date IS NULL OR due_date = '' THEN 1
ELSE 0 END`. -/
def due_flag_key (n : Note) : Nat :=
  match n.due_date with
  | none => 1
  | some d => if d = "" then 1 else 0

/-- The total `ORDER BY` comparison of `fetch_notes` (`app.py` lines
265-271): pinned first, then priority rank, then rows with a due date, then
due date ascending, then `updated_at` descending, then `id` descending. -/
def note_le (a b : Note) : Bool :=
  nat_then (pin_key a) (pin_key b) <|
  nat_then (priority_key a) (priority_key b) <|
  nat_then (due_flag_key a) (due_flag_key b) <|
  opt_then a.due_date b.due_date <|
  nat_then b.updated_at a.updated_at <|
  decide (b.id ≤ a.id)

/-- The `ORDER BY` comparison as a relation, for sortedness statements. -/
def sql_le (a b : Note) : Prop := note_le a b = true

instance : DecidableRel sql_le := fun a b =>
  inferInstanceAs (Decidable (note_le a b = true))

/-- Shallow embedding of `fetch_notes` (`app.py` lines 245-274): the rows
satisfying the WHERE clause, ordered by the fixed `ORDER BY` comparison. -/
def fetch_notes (f : Filters) (s : Store) : List Note :=
  List.insertionSort sql_le (s.notes.filter (build_where_clause f))

/-- The JSON record produced by `serialize_note` (`app.py` lines 570-584).
The flag columns pass through Python's `bool()`; since the embedded flags are
already booleans the conversion is the identity here. -/
structure SerializedNote where
  id : Nat
  title : String
  content : String
  category : String
  status : String
  priority : String
  due_date : Option String
  is_pinned : Bool
  is_archived : Bool
  is_deleted : Bool
  created_at : Nat
  updated_at : Nat
deriving DecidableEq

/-- Shallow embedding of `serialize_note`. -/
def serialize_note (n : Note) : SerializedNote :=
  { id := n.id, title := n.title, content := n.content,
    category := n.category, status := n.status, priority := n.priority,
    due_date := n.due_date, is_pinned := n.is_pinned,
    is_archived := n.is_archived, is_deleted := n.is_deleted,
    created_at := n.created_at, updated_at := n.updated_at }

/-- Shallow embedding of the `note_detail_api` route (`app.py` lines
600-602): serialize the row found by `get_note_or_404`, with no check of the
trashed state. -/
def note_detail_api (s : Store) (id : Nat) : Except NoteError SerializedNote :=
  match get_note_or_404 s id with
  | none => .error .notFound
  | some n => .ok (serialize_note n)

/-- A row of the `notes` table of a pre-existing database, before
`ensure_notes_schema` normalized it: the enum, category, due-date and flag
columns may hold NULL (columns just added by `ALTER TABLE` receive their
non-null defaults, but an older writer may have left NULLs), the flag columns
may hold any integer. -/
structure RawRow where
  id : Nat
  title : String
  content : String
  category : Option String
  status : Option String
  priority : Option String
  due_date : Option String
  is_pinned : Option Int
  is_archived : Option Int
  is_deleted : Option Int
  created_at : Nat
  updated_at : Nat
deriving DecidableEq

/-- SQLite's `TRIM` with no second argument removes ASCII spaces from both
ends. -/
def sqlite_trim (s : String) : String :=
  ⟨((((s.data).dropWhile (fun c => c = ' ')).reverse.dropWhile (fun c => c = ' ')).reverse)⟩

/-- The per-row effect of the normalizing `UPDATE` of `ensure_notes_schema`
(`app.py` lines 86-103): `category = COALESCE(NULLIF(TRIM(category), ''),
'general')`, enum columns coerced into their sets via `CASE`, NULL flags
coerced to 0; the other columns are not assigned. -/
def normalize_row (r : RawRow) : RawRow :=
  { r with
    category :=
      match r.category with
      | none => some "general"
      | some c => if sqlite_trim c = "" then some "general" else some (sqlite_trim c)
    status :=
      match r.status with
      | some v => if STATUSES.contains v then some v else some "todo"
      | none => some "todo"
    priority :=
      match r.priority with
      | some v => if PRIORITIES.contains v then some v else some "medium"
      | none => some "medium"
    is_pinned :=
      match r.is_pinned with
      | none => some 0
      | some k => some k
    is_archived :=
      match r.is_archived with
      | none => some 0
      | some k => some k
    is_deleted :=
      match r.is_deleted with
      | none => some 0
      | some k => some k }

/-- The row-normalization pass of `ensure_notes_schema` (`app.py` lines
47-109) over a whole pre-existing table.  The `CREATE TABLE IF NOT EXISTS`,
`ALTER TABLE ADD COLUMN` and `CREATE INDEX IF NOT EXISTS` statements change
the schema shape only, never row contents or row count, so the embedded
effect on stored rows is the normalizing `UPDATE`. -/
def ensure_notes_schema (rows : List RawRow) : List RawRow :=
  rows.map normalize_row

/-- Case-sensitive test that the first list is an initial segment of the
second, used to state plain substring containment. -/
def starts_with : List Char → List Char → Bool
  | [], _ => true
  | _ :: _, [] => false
  | a :: as, b :: bs => a = b && starts_with as bs

/-- Case-sensitive substring containment of character lists. -/
def has_sub (q : List Char) : List Char → Bool
  | [] => starts_with q []
  | c :: cs => starts_with q (c :: cs) || has_sub q cs

/-- A text query that contains none of the `LIKE` wildcard characters. -/
def no_wildcards (q : String) : Bool :=
  q.data.all (fun c => ¬ c = '%' && ¬ c = '_')

/-- Internal well-formedness of a store: identifiers are below the
AUTOINCREMENT counter and pairwise distinct, and a trashed row carries no
archive or pin flag. -/
def store_ok (s : Store) : Prop :=
  (∀ n ∈ s.notes, n.id < s.next_id) ∧
  (s.notes.map Note.id).Nodup ∧
  (∀ n ∈ s.notes, n.is_deleted = true → n.is_archived = false ∧ n.is_pinned = false)

/-- Fixture: a form carrying only a title. -/
def w_form1 : Args := fun k => if k = "title" then some "A" else none

/-- Fixture: the store after creating one note from `w_form1` at time 0. -/
def w_store1 : Store :=
  ⟨[⟨1, "A", "", "general", "todo", "medium", none, false, false, false, 0, 0⟩], 2⟩

/-- Fixture: `w_store1` after trashing note 1 at time 1. -/
def w_store2 : Store :=
  ⟨[⟨1, "A", "", "general", "todo", "medium", none, false, false, true, 0, 1⟩], 2⟩

/-- Fixture: a pinned low-priority note. -/
def w_pinned_low : Note :=
  ⟨1, "P", "", "general", "todo", "low", some "2026-03-07", true, false, false, 0, 9⟩

/-- Fixture: an unpinned high-priority note with an earlier due date. -/
def w_unpinned_high : Note :=
  ⟨2, "U", "", "general", "todo", "high", some "2026-03-01", false, false, false, 0, 3⟩

/-- Fixture: an unpinned high-priority note with a later due date. -/
def w_unpinned_high_late : Note :=
  ⟨3, "V", "", "general", "todo", "high", some "2026-04-01", false, false, false, 0, 8⟩

/-- Fixture: a store holding the three sort-fixture notes. -/
def w_sort_store : Store := ⟨[w_unpinned_high_late, w_pinned_low, w_unpinned_high], 4⟩

/-- Fixture: the default canonical filters (active view, no constraints). -/
def w_filters_active : Filters := ⟨"", "all", "all", "all", "active"⟩

/-- Fixture: canonical filters searching for the text `a%b`. -/
def w_filters_wild : Filters := ⟨"a%b", "all", "all", "all", "active"⟩

/-- Fixture: a note whose title matches the pattern `%a\x25b%` without
containing `a%b`. -/
def w_note_axb : Note :=
  ⟨1, "aXb", "", "general", "todo", "medium", none, false, false, false, 0, 0⟩

/-- Fixture: the store holding only `w_note_axb`. -/
def w_store_axb : Store := ⟨[w_note_axb], 2⟩

/-- Fixture: a raw legacy row with NULL metadata and an out-of-range
status. -/
def w_raw_row : RawRow :=
  ⟨5, "Legacy", "body", none, some "open", none, some "2020-01-01", none, some 1, none, 3, 4⟩

/-- Fixture: a form whose title is only spaces. -/
def w_blank_form : Args := fun k => if k = "title" then some "   " else none

/-- Fixture: a full update form with no pin token. -/
def w_form_upd : Args := fun k =>
  if k = "title" then some "B"
  else if k = "content" then some "body"
  else if k = "status" then some "done"
  else if k = "priority" then some "low"
  else if k = "due_date" then some "2026-03-05"
  else none

/-- Fixture: canonical filters searching for the text `alpha`. -/
def w_filters_alpha : Filters := ⟨"alpha", "all", "all", "all", "active"⟩

/-- Fixture: a note whose title contains `Alpha` in mixed case. -/
def w_note_alpha : Note :=
  ⟨1, "the Alpha note", "", "general", "todo", "medium", none, false, false, false, 0, 0⟩

/-- Fixture: the store holding only `w_note_alpha`. -/
def w_store_alpha : Store := ⟨[w_note_alpha], 2⟩

theorem dropws_length (l : List Char) : (dropws l).length ≤ l.length := by
  induction l with
  | nil => simp [dropws]
  | cons c cs ih =>
    by_cases h : py_ws c
    · simp only [dropws, h, if_true]
      exact Nat.le_trans ih (Nat.le_succ _)
    · simp [dropws, h]

theorem dropws_idem (l : List Char) : dropws (dropws l) = dropws l := by
  induction l with
  | nil => rfl
  | cons c cs ih =>
    by_cases h : py_ws c
    · simp only [dropws, h, if_true]; exact ih
    · simp [dropws, h]

theorem dropws_append (xs ys : List Char) :
    dropws (xs ++ ys) = if dropws xs = [] then dropws ys else dropws xs ++ ys := by
  induction xs with
  | nil => simp [dropws]
  | cons c cs ih =>
    by_cases h : py_ws c
    · simpa [dropws, h] using ih
    · simp [dropws, h]

theorem rtrim_fix {l : List Char} (h : dropws l = l) :
    dropws ((dropws l.reverse).reverse) = (dropws l.reverse).reverse := by
  cases l with
  | nil => simp [dropws]
  | cons c cs =>
    have hc : ¬ py_ws c = true := by
      intro hcc
      have h1 : dropws (c :: cs) = dropws cs := by simp [dropws, hcc]
      have h2 : dropws cs = c :: cs := by rw [← h1, h]
      have h3 := dropws_length cs
      rw [h2] at h3
      simp at h3
    rw [List.reverse_cons, dropws_append]
    by_cases hnil : dropws cs.reverse = []
    · simp [hnil, dropws, hc]
    · simp only [if_neg hnil, List.reverse_append]
      simp [dropws, hc]

theorem py_strip_idem (s : String) : py_strip (py_strip s) = py_strip s := by
  apply String.ext
  have hu : dropws (dropws s.data) = dropws s.data := dropws_idem _
  have hz := rtrim_fix hu
  show (dropws ((dropws (py_strip s).data).reverse)).reverse = (py_strip s).data
  have hdata : (py_strip s).data = (dropws ((dropws s.data).reverse)).reverse := rfl
  rw [hdata, hz, List.reverse_reverse, dropws_idem]

/-- C4: for every raw mapping of string keys to string values, filter
normalization never fails (it is a total Lean function) and returns a
canonical record whose text query is trimmed, whose status and priority are
"all" or a member of their respective enum, whose category is "all" or a
non-blank literal, and whose view is one of active, archived, trash;
normalization is idempotent: re-submitting the canonical record yields the
same record. -/
theorem load_filters_canonical_idem (args : Args) :
    py_strip (load_filters args).q = (load_filters args).q ∧
    ((load_filters args).status = "all" ∨ (load_filters args).status ∈ STATUSES) ∧
    ((load_filters args).priority = "all" ∨ (load_filters args).priority ∈ PRIORITIES) ∧
    ((load_filters args).category = "all" ∨
      ((load_filters args).category ≠ "" ∧
        py_strip (load_filters args).category = (load_filters args).category)) ∧
    (load_filters args).view ∈ VIEWS ∧
    load_filters (filters_to_args (load_filters args)) = load_filters args := by
  have h1 : py_strip (load_filters args).q = (load_filters args).q := by
    simp only [load_filters]
    exact py_strip_idem _
  have h2 : (load_filters args).status = "all" ∨ (load_filters args).status ∈ STATUSES := by
    simp only [load_filters]
    by_cases h : ("all" :: STATUSES).contains (py_strip (args_get args "status" "all")) = true
    · simp only [if_pos h]
      exact List.mem_cons.mp (List.elem_iff.mp h)
    · rw [if_neg h]; exact Or.inl rfl
  have h3 : (load_filters args).priority = "all" ∨ (load_filters args).priority ∈ PRIORITIES := by
    simp only [load_filters]
    by_cases h : ("all" :: PRIORITIES).contains (py_strip (args_get args "priority" "all")) = true
    · simp only [if_pos h]
      exact List.mem_cons.mp (List.elem_iff.mp h)
    · rw [if_neg h]; exact Or.inl rfl
  have h4 : (load_filters args).category = "all" ∨
      ((load_filters args).category ≠ "" ∧
        py_strip (load_filters args).category = (load_filters args).category) := by
    simp only [load_filters]
    by_cases h : py_strip (args_get args "category" "all") = ""
    · simp [if_pos h]
    · simp only [if_neg h]
      exact Or.inr ⟨h, py_strip_idem _⟩
  have h5 : (load_filters args).view ∈ VIEWS := by
    simp only [load_filters]
    by_cases h : VIEWS.contains (py_strip (args_get args "view" "active")) = true
    · simp only [if_pos h]
      exact List.elem_iff.mp h
    · rw [if_neg h]; decide
  refine ⟨h1, h2, h3, h4, h5, ?_⟩
  have hq : args_get (filters_to_args (load_filters args)) "q" "" = (load_filters args).q := by
    simp [filters_to_args, args_get]
  have hst : args_get (filters_to_args (load_filters args)) "status" "all" = (load_filters args).status := by
    simp [filters_to_args, args_get]
  have hpr : args_get (filters_to_args (load_filters args)) "priority" "all" = (load_filters args).priority := by
    simp [filters_to_args, args_get]
  have hca : args_get (filters_to_args (load_filters args)) "category" "all" = (load_filters args).category := by
    simp [filters_to_args, args_get]
  have hvw : args_get (filters_to_args (load_filters args)) "view" "active" = (load_filters args).view := by
    simp [filters_to_args, args_get]
  show load_filters (filters_to_args (load_filters args)) = load_filters args
  rw [load_filters, hq, hst, hpr, hca, hvw]
  have eq_q : py_strip (load_filters args).q = (load_filters args).q := h1
  have eq_st : (if ("all" :: STATUSES).contains (py_strip (load_filters args).status) = true
      then py_strip (load_filters args).status else "all") = (load_filters args).status := by
    rcases h2 with h | h
    · rw [h]; decide
    · simp only [STATUSES, List.mem_cons, List.not_mem_nil, or_false] at h
      rcases h with h | h | h
      all_goals (rw [h]; decide)
  have eq_pr : (if ("all" :: PRIORITIES).contains (py_strip (load_filters args).priority) = true
      then py_strip (load_filters args).priority else "all") = (load_filters args).priority := by
    rcases h3 with h | h
    · rw [h]; decide
    · simp only [PRIORITIES, List.mem_cons, List.not_mem_nil, or_false] at h
      rcases h with h | h | h
      all_goals (rw [h]; decide)
  have eq_ca : (if py_strip (load_filters args).category = ""
      then "all" else py_strip (load_filters args).category) = (load_filters args).category := by
    rcases h4 with h | h
    · rw [h]; decide
    · rw [h.2, if_neg h.1]
  have eq_vw : (if VIEWS.contains (py_strip (load_filters args).view) = true
      then py_strip (load_filters args).view else "active") = (load_filters args).view := by
    simp only [VIEWS, List.mem_cons, List.not_mem_nil, or_false] at h5
    rcases h5 with h | h | h
    all_goals (rw [h]; decide)
  rw [eq_q, eq_st, eq_pr, eq_ca, eq_vw]

theorem nnf_blank_title {form : Args} (h : py_strip (args_get form "title" "") = "") :
    normalize_note_form form = .error "Title is required." := by
  simp only [normalize_note_form]
  rw [if_pos h]

theorem nnf_bad_status {form : Args} (h : ¬ py_strip (args_get form "title" "") = "")
    (h2 : py_strip (args_get form "status" "todo") ∉ STATUSES) :
    normalize_note_form form = .error "Status is invalid." := by
  simp only [normalize_note_form]
  rw [if_neg h, if_pos (fun hc => h2 (List.elem_iff.mp hc))]

theorem nnf_bad_priority {form : Args} (h : ¬ py_strip (args_get form "title" "") = "")
    (h2 : py_strip (args_get form "status" "todo") ∈ STATUSES)
    (h3 : py_strip (args_get form "priority" "medium") ∉ PRIORITIES) :
    normalize_note_form form = .error "Priority is invalid." := by
  simp only [normalize_note_form]
  rw [if_neg h, if_neg (fun hc => hc (List.elem_iff.mpr h2)),
      if_pos (fun hc => h3 (List.elem_iff.mp hc))]

theorem nnf_bad_date {form : Args} (h : ¬ py_strip (args_get form "title" "") = "")
    (h2 : py_strip (args_get form "status" "todo") ∈ STATUSES)
    (h3 : py_strip (args_get form "priority" "medium") ∈ PRIORITIES)
    (h4 : ¬ py_strip (args_get form "due_date" "") = "")
    (h5 : valid_iso_date (py_strip (args_get form "due_date" "")) = false) :
    normalize_note_form form =
      .error "Due date must be a valid date in YYYY-MM-DD format." := by
  simp only [normalize_note_form]
  rw [if_neg h, if_neg (fun hc => hc (List.elem_iff.mpr h2)),
      if_neg (fun hc => hc (List.elem_iff.mpr h3))]
  have hp : parse_due_date (py_strip (args_get form "due_date" "")) =
      (none, some "Due date must be a valid date in YYYY-MM-DD format.") := by
    simp only [parse_due_date]
    rw [if_neg h4, if_neg (by simp [h5])]
  rw [hp]

theorem nnf_ok {form : Args} {d0 : Option String}
    (h : ¬ py_strip (args_get form "title" "") = "")
    (h2 : py_strip (args_get form "status" "todo") ∈ STATUSES)
    (h3 : py_strip (args_get form "priority" "medium") ∈ PRIORITIES)
    (h4 : parse_due_date (py_strip (args_get form "due_date" "")) = (d0, none)) :
    normalize_note_form form =
      .ok { title := py_strip (args_get form "title" ""),
            content := py_strip (args_get form "content" ""),
            category := if py_strip (args_get form "category" "general") = ""
                        then "general" else py_strip (args_get form "category" "general"),
            status := py_strip (args_get form "status" "todo"),
            priority := py_strip (args_get form "priority" "medium"),
            due_date := d0,
            is_pinned := pin_token form } := by
  simp only [normalize_note_form]
  rw [if_neg h, if_neg (fun hc => hc (List.elem_iff.mpr h2)),
      if_neg (fun hc => hc (List.elem_iff.mpr h3)), h4]

theorem parse_due_date_shape (raw : String) :
    (parse_due_date raw).2 = none ∨ ∃ e, parse_due_date raw = (none, some e) := by
  simp only [parse_due_date]
  by_cases h : raw = ""
  · rw [if_pos h]; exact Or.inl rfl
  · rw [if_neg h]
    by_cases hv : valid_iso_date raw = true
    · rw [if_pos hv]; exact Or.inl rfl
    · rw [if_neg hv]; exact Or.inr ⟨_, rfl⟩

theorem parse_due_date_none {raw : String} (h : raw = "") : parse_due_date raw = (none, none) := by
  simp only [parse_due_date]; rw [if_pos h]

theorem parse_due_date_valid {raw : String} (h : ¬ raw = "") (hv : valid_iso_date raw = true) :
    parse_due_date raw = (some raw, none) := by
  simp only [parse_due_date]; rw [if_neg h, if_pos hv]

theorem parse_due_date_invalid {raw : String} (h : ¬ raw = "") (hv : valid_iso_date raw = false) :
    parse_due_date raw = (none, some "Due date must be a valid date in YYYY-MM-DD format.") := by
  simp only [parse_due_date]; rw [if_neg h, if_neg (by simp [hv])]

theorem create_note_error_iff {form : Args} {s : Store} {now : Nat} {e : String} :
    create_note s form now = .error e ↔ normalize_note_form form = .error e := by
  cases hnf : normalize_note_form form <;> simp [create_note, hnf]

/-- C5: creation fails with a validation error naming the offending field,
and appends no row, exactly when the trimmed title is blank, the status or
priority is outside its enum, or a supplied due date does not parse as a
calendar date; on success exactly one new row is appended, non-deleted and
non-archived, with blank category coerced to "general" and the given status,
priority and due date. -/
theorem create_note_spec (form : Args) (s : Store) (now : Nat) :
    ((∃ e, create_note s form now = .error e) ↔
      (py_strip (args_get form "title" "") = "" ∨
       py_strip (args_get form "status" "todo") ∉ STATUSES ∨
       py_strip (args_get form "priority" "medium") ∉ PRIORITIES ∨
       (py_strip (args_get form "due_date" "") ≠ "" ∧
        valid_iso_date (py_strip (args_get form "due_date" "")) = false))) ∧
    (py_strip (args_get form "title" "") = "" →
      create_note s form now = .error "Title is required.") ∧
    (py_strip (args_get form "title" "") ≠ "" →
      py_strip (args_get form "status" "todo") ∉ STATUSES →
      create_note s form now = .error "Status is invalid.") ∧
    (py_strip (args_get form "title" "") ≠ "" →
      py_strip (args_get form "status" "todo") ∈ STATUSES →
      py_strip (args_get form "priority" "medium") ∉ PRIORITIES →
      create_note s form now = .error "Priority is invalid.") ∧
    (py_strip (args_get form "title" "") ≠ "" →
      py_strip (args_get form "status" "todo") ∈ STATUSES →
      py_strip (args_get form "priority" "medium") ∈ PRIORITIES →
      py_strip (args_get form "due_date" "") ≠ "" →
      valid_iso_date (py_strip (args_get form "due_date" "")) = false →
      create_note s form now = .error "Due date must be a valid date in YYYY-MM-DD format.") ∧
    (∀ s', create_note s form now = .ok s' →
      ∃ d, normalize_note_form form = .ok d ∧
        s'.notes = s.notes ++ [mk_note s.next_id d now] ∧
        s'.next_id = s.next_id + 1 ∧
        d.title = py_strip (args_get form "title" "") ∧
        d.status = py_strip (args_get form "status" "todo") ∧
        d.priority = py_strip (args_get form "priority" "medium") ∧
        d.category = (if py_strip (args_get form "category" "general") = ""
                      then "general" else py_strip (args_get form "category" "general")) ∧
        d.category ≠ "" ∧
        (py_strip (args_get form "due_date" "") = "" → d.due_date = none) ∧
        (py_strip (args_get form "due_date" "") ≠ "" →
          d.due_date = some (py_strip (args_get form "due_date" ""))) ∧
        (mk_note s.next_id d now).is_deleted = false ∧
        (mk_note s.next_id d now).is_archived = false) := by
  refine ⟨⟨?_, ?_⟩, ?_, ?_, ?_, ?_, ?_⟩
  · rintro ⟨e, he⟩
    by_contra hcon
    push_neg at hcon
    obtain ⟨hT, hS, hP, hD⟩ := hcon
    have hd : parse_due_date (py_strip (args_get form "due_date" "")) =
        ((parse_due_date (py_strip (args_get form "due_date" ""))).1, none) := by
      by_cases hdr : py_strip (args_get form "due_date" "") = ""
      · rw [parse_due_date_none hdr]
      · have hv : valid_iso_date (py_strip (args_get form "due_date" "")) = true := by
          cases hvv : valid_iso_date (py_strip (args_get form "due_date" "")) with
          | true => rfl
          | false => exact absurd hvv (hD hdr)
        rw [parse_due_date_valid hdr hv]
    have := @nnf_ok form ((parse_due_date (py_strip (args_get form "due_date" ""))).1)
      hT hS hP hd
    rw [create_note_error_iff, this] at he
    exact Except.noConfusion he
  · intro hcond
    rcases hcond with hT | hS | hP | hD
    · exact ⟨_, create_note_error_iff.mpr (nnf_blank_title hT)⟩
    · by_cases hT : py_strip (args_get form "title" "") = ""
      · exact ⟨_, create_note_error_iff.mpr (nnf_blank_title hT)⟩
      · exact ⟨_, create_note_error_iff.mpr (nnf_bad_status hT hS)⟩
    · by_cases hT : py_strip (args_get form "title" "") = ""
      · exact ⟨_, create_note_error_iff.mpr (nnf_blank_title hT)⟩
      · by_cases hS : py_strip (args_get form "status" "todo") ∈ STATUSES
        · exact ⟨_, create_note_error_iff.mpr (nnf_bad_priority hT hS hP)⟩
        · exact ⟨_, create_note_error_iff.mpr (nnf_bad_status hT hS)⟩
    · by_cases hT : py_strip (args_get form "title" "") = ""
      · exact ⟨_, create_note_error_iff.mpr (nnf_blank_title hT)⟩
      · by_cases hS : py_strip (args_get form "status" "todo") ∈ STATUSES
        · by_cases hP : py_strip (args_get form "priority" "medium") ∈ PRIORITIES
          · exact ⟨_, create_note_error_iff.mpr (nnf_bad_date hT hS hP hD.1 hD.2)⟩
          · exact ⟨_, create_note_error_iff.mpr (nnf_bad_priority hT hS hP)⟩
        · exact ⟨_, create_note_error_iff.mpr (nnf_bad_status hT hS)⟩
  · intro hT
    exact create_note_error_iff.mpr (nnf_blank_title hT)
  · intro hT hS
    exact create_note_error_iff.mpr (nnf_bad_status hT hS)
  · intro hT hS hP
    exact create_note_error_iff.mpr (nnf_bad_priority hT hS hP)
  · intro hT hS hP hdr hv
    exact create_note_error_iff.mpr (nnf_bad_date hT hS hP hdr hv)
  · intro s' hok
    cases hnf : normalize_note_form form with
    | error e => simp [create_note, hnf] at hok
    | ok d =>
      have hshape : create_note s form now = .ok ⟨s.notes ++ [mk_note s.next_id d now], s.next_id + 1⟩ := by
        simp [create_note, hnf]
      rw [hok] at hshape
      have hs' := (Except.ok.inj hshape).symm
      have hT : ¬ py_strip (args_get form "title" "") = "" := by
        intro hT
        rw [nnf_blank_title hT] at hnf
        exact Except.noConfusion hnf
      have hS : py_strip (args_get form "status" "todo") ∈ STATUSES := by
        by_contra hS
        rw [nnf_bad_status hT hS] at hnf
        exact Except.noConfusion hnf
      have hP : py_strip (args_get form "priority" "medium") ∈ PRIORITIES := by
        by_contra hP
        rw [nnf_bad_priority hT hS hP] at hnf
        exact Except.noConfusion hnf
      by_cases hdr : py_strip (args_get form "due_date" "") = ""
      · have hd := @nnf_ok form none hT hS hP (parse_due_date_none hdr)
        rw [hnf] at hd
        have hdval := Except.ok.inj hd
        refine ⟨d, rfl, by rw [← hs'], by rw [← hs'], ?_⟩
        rw [hdval]
        refine ⟨rfl, rfl, rfl, rfl, ?_, fun _ => rfl, fun hc => absurd hdr hc, rfl, rfl⟩
        · by_cases hc : py_strip (args_get form "category" "general") = ""
          · simp [hc]
          · simp [hc]
      · have hv : valid_iso_date (py_strip (args_get form "due_date" "")) = true := by
          cases hvv : valid_iso_date (py_strip (args_get form "due_date" "")) with
          | true => rfl
          | false =>
            rw [nnf_bad_date hT hS hP hdr hvv] at hnf
            exact Except.noConfusion hnf
        have hd := @nnf_ok form (some (py_strip (args_get form "due_date" "")))
          hT hS hP (parse_due_date_valid hdr hv)
        rw [hnf] at hd
        have hdval := Except.ok.inj hd
        refine ⟨d, rfl, by rw [← hs'], by rw [← hs'], ?_⟩
        rw [hdval]
        refine ⟨rfl, rfl, rfl, rfl, ?_, fun hc => absurd hc hdr, fun _ => rfl, rfl, rfl⟩
        · by_cases hc : py_strip (args_get form "category" "general") = ""
          · simp [hc]
          · simp [hc]

/-- Witness for C5: a form whose title is only spaces fails with the
title-validation error. -/
theorem create_note_spec_witness :
    py_strip (args_get w_blank_form "title" "") = "" ∧
    create_note empty_store w_blank_form 0 = .error "Title is required." :=
  ⟨by decide, (create_note_spec w_blank_form empty_store 0).2.1 (by decide)⟩

theorem update_note_none {s : Store} {id : Nat} {form : Args} {now : Nat}
    (h : get_note_or_404 s id = none) :
    update_note s id form now = .error .notFound := by
  simp [update_note, h]

theorem update_note_deleted {s : Store} {id : Nat} {form : Args} {now : Nat} {n : Note}
    (h : get_note_or_404 s id = some n) (hd : n.is_deleted = true) :
    update_note s id form now = .error .notFound := by
  simp [update_note, h, hd]

theorem update_note_invalid {s : Store} {id : Nat} {form : Args} {now : Nat} {n : Note} {e : String}
    (h : get_note_or_404 s id = some n) (hd : n.is_deleted = false)
    (hnf : normalize_note_form form = .error e) :
    update_note s id form now = .error (.invalid e) := by
  simp [update_note, h, hd, hnf]

theorem update_note_ok_eq {s : Store} {id : Nat} {form : Args} {now : Nat} {n : Note} {d : NoteData}
    (h : get_note_or_404 s id = some n) (hd : n.is_deleted = false)
    (hnf : normalize_note_form form = .ok d) :
    update_note s id form now =
      .ok ⟨s.notes.map (fun m =>
            if m.id = id then
              { m with title := d.title, content := d.content,
                       category := d.category, status := d.status,
                       priority := d.priority, due_date := d.due_date,
                       is_pinned := d.is_pinned, updated_at := now }
            else m), s.next_id⟩ := by
  simp [update_note, h, hd, hnf]

theorem move_to_trash_none {s : Store} {id now : Nat}
    (h : get_note_or_404 s id = none) :
    move_to_trash s id now = .error .notFound := by
  simp [move_to_trash, h]

theorem move_to_trash_deleted {s : Store} {id now : Nat} {n : Note}
    (h : get_note_or_404 s id = some n) (hd : n.is_deleted = true) :
    move_to_trash s id now = .error .notFound := by
  simp [move_to_trash, h, hd]

theorem move_to_trash_ok_eq {s : Store} {id now : Nat} {n : Note}
    (h : get_note_or_404 s id = some n) (hd : n.is_deleted = false) :
    move_to_trash s id now =
      .ok ⟨s.notes.map (fun m =>
            if m.id = id then
              { m with is_deleted := true, is_archived := false,
                       is_pinned := false, updated_at := now }
            else m), s.next_id⟩ := by
  simp [move_to_trash, h, hd]

theorem restore_note_none {s : Store} {id now : Nat}
    (h : get_note_or_404 s id = none) :
    restore_note s id now = .error .notFound := by
  simp [restore_note, h]

theorem restore_note_noop {s : Store} {id now : Nat} {n : Note}
    (h : get_note_or_404 s id = some n) (hd : n.is_deleted = false) :
    restore_note s id now = .ok s := by
  simp [restore_note, h, hd]

theorem restore_note_ok_eq {s : Store} {id now : Nat} {n : Note}
    (h : get_note_or_404 s id = some n) (hd : n.is_deleted = true) :
    restore_note s id now =
      .ok ⟨s.notes.map (fun m =>
            if m.id = id then
              { m with is_deleted := false, is_archived := false, updated_at := now }
            else m), s.next_id⟩ := by
  simp [restore_note, h, hd]

theorem purge_note_none {s : Store} {id : Nat}
    (h : get_note_or_404 s id = none) :
    purge_note s id = .error .notFound := by
  simp [purge_note, h]

theorem purge_note_ok_eq {s : Store} {id : Nat} {n : Note}
    (h : get_note_or_404 s id = some n) :
    purge_note s id = .ok ⟨s.notes.filter (fun m => !(m.id == id)), s.next_id⟩ := by
  simp [purge_note, h]

theorem toggle_pin_ok_eq {s : Store} {id now : Nat} {n : Note}
    (h : get_note_or_404 s id = some n) (hd : n.is_deleted = false) :
    toggle_pin s id now =
      .ok ⟨s.notes.map (fun m =>
            if m.id = id then { m with is_pinned := !n.is_pinned, updated_at := now }
            else m), s.next_id⟩ := by
  simp [toggle_pin, h, hd]

theorem toggle_archive_ok_eq {s : Store} {id now : Nat} {n : Note}
    (h : get_note_or_404 s id = some n) (hd : n.is_deleted = false) :
    toggle_archive s id now =
      .ok ⟨s.notes.map (fun m =>
            if m.id = id then { m with is_archived := !n.is_archived, updated_at := now }
            else m), s.next_id⟩ := by
  simp [toggle_archive, h, hd]

theorem create_note_ok_eq {s : Store} {form : Args} {now : Nat} {d : NoteData}
    (hnf : normalize_note_form form = .ok d) :
    create_note s form now = .ok ⟨s.notes ++ [mk_note s.next_id d now], s.next_id + 1⟩ := by
  simp [create_note, hnf]

theorem nnf_ok_fields {form : Args} {d : NoteData}
    (hnf : normalize_note_form form = .ok d) :
    d.title = py_strip (args_get form "title" "") ∧
    d.content = py_strip (args_get form "content" "") ∧
    d.category = (if py_strip (args_get form "category" "general") = ""
                  then "general" else py_strip (args_get form "category" "general")) ∧
    d.status = py_strip (args_get form "status" "todo") ∧
    d.priority = py_strip (args_get form "priority" "medium") ∧
    d.is_pinned = pin_token form := by
  have hT : ¬ py_strip (args_get form "title" "") = "" := by
    intro hT
    rw [nnf_blank_title hT] at hnf
    exact Except.noConfusion hnf
  have hS : py_strip (args_get form "status" "todo") ∈ STATUSES := by
    by_contra hS
    rw [nnf_bad_status hT hS] at hnf
    exact Except.noConfusion hnf
  have hP : py_strip (args_get form "priority" "medium") ∈ PRIORITIES := by
    by_contra hP
    rw [nnf_bad_priority hT hS hP] at hnf
    exact Except.noConfusion hnf
  by_cases hdr : py_strip (args_get form "due_date" "") = ""
  · have hd := @nnf_ok form none hT hS hP (parse_due_date_none hdr)
    rw [hnf] at hd
    rw [Except.ok.inj hd]
    exact ⟨rfl, rfl, rfl, rfl, rfl, rfl⟩
  · have hv : valid_iso_date (py_strip (args_get form "due_date" "")) = true := by
      cases hvv : valid_iso_date (py_strip (args_get form "due_date" "")) with
      | true => rfl
      | false =>
        rw [nnf_bad_date hT hS hP hdr hvv] at hnf
        exact Except.noConfusion hnf
    have hd := @nnf_ok form (some (py_strip (args_get form "due_date" "")))
      hT hS hP (parse_due_date_valid hdr hv)
    rw [hnf] at hd
    rw [Except.ok.inj hd]
    exact ⟨rfl, rfl, rfl, rfl, rfl, rfl⟩

theorem get_after_map (l : List Note) (id : Nat) (t : Note → Note)
    (ht : ∀ m, (t m).id = m.id) :
    (l.map (fun m => if m.id = id then t m else m)).find? (fun n => n.id == id)
      = (l.find? (fun n => n.id == id)).map (fun m => if m.id = id then t m else m) := by
  have hp : ((fun n : Note => n.id == id) ∘ fun m => if m.id = id then t m else m)
      = (fun n : Note => n.id == id) := by
    funext m
    by_cases h : m.id = id
    · simp [Function.comp, h, ht]
    · simp [Function.comp, h]
  rw [List.find?_map, hp]

/-- C7: update fails with not-found when the note does not exist or is
trashed, applies the same field validation as create before any mutation (a
validation error leaves the store untouched), and on success overwrites the
mutable fields, bumps `updated_at` to the current clock, leaves every other
row in place, and resets the pin flag to false when the pin token is absent
from the submitted form. -/
theorem update_note_spec (s : Store) (id : Nat) (form : Args) (now : Nat) :
    (update_note s id form now = .error .notFound ↔
      (get_note_or_404 s id = none ∨
        ∃ n, get_note_or_404 s id = some n ∧ n.is_deleted = true)) ∧
    (∀ n e, get_note_or_404 s id = some n → n.is_deleted = false →
      normalize_note_form form = .error e →
      update_note s id form now = .error (.invalid e)) ∧
    (∀ s', update_note s id form now = .ok s' →
      ∃ n d, get_note_or_404 s id = some n ∧ n.is_deleted = false ∧
        normalize_note_form form = .ok d ∧
        s'.next_id = s.next_id ∧
        (∀ m ∈ s.notes, m.id ≠ id → m ∈ s'.notes) ∧
        get_note_or_404 s' id = some
          { n with title := d.title, content := d.content, category := d.category,
                   status := d.status, priority := d.priority,
                   due_date := d.due_date, is_pinned := d.is_pinned,
                   updated_at := now } ∧
        (form "is_pinned" = none → d.is_pinned = false)) := by
  refine ⟨⟨?_, ?_⟩, ?_, ?_⟩
  · intro he
    cases hfind : get_note_or_404 s id with
    | none => exact Or.inl rfl
    | some n =>
      cases hdel : n.is_deleted with
      | true => exact Or.inr ⟨n, rfl, hdel⟩
      | false =>
        exfalso
        cases hnf : normalize_note_form form with
        | error e =>
          rw [update_note_invalid hfind hdel hnf] at he
          exact NoteError.noConfusion (Except.error.inj he)
        | ok d =>
          rw [update_note_ok_eq hfind hdel hnf] at he
          exact Except.noConfusion he
  · intro hcond
    rcases hcond with hnone | ⟨n, hfind, hdel⟩
    · exact update_note_none hnone
    · exact update_note_deleted hfind hdel
  · intro n e hfind hdel hnf
    exact update_note_invalid hfind hdel hnf
  · intro s' hok
    cases hfind : get_note_or_404 s id with
    | none => rw [update_note_none hfind] at hok; exact Except.noConfusion hok
    | some n =>
      cases hdel : n.is_deleted with
      | true =>
        rw [update_note_deleted hfind hdel] at hok
        exact Except.noConfusion hok
      | false =>
        cases hnf : normalize_note_form form with
        | error e =>
          rw [update_note_invalid hfind hdel hnf] at hok
          exact Except.noConfusion hok
        | ok d =>
          rw [update_note_ok_eq hfind hdel hnf] at hok
          have hs' := (Except.ok.inj hok).symm
          have hfind2 : s.notes.find? (fun m => m.id == id) = some n := hfind
          have hpa := @List.find?_some Note (fun m => m.id == id) n s.notes hfind2
          have hid : n.id = id := by simpa using hpa
          refine ⟨n, d, rfl, hdel, rfl, by rw [hs'], ?_, ?_, ?_⟩
          · intro m hm hne
            rw [hs']
            exact List.mem_map.mpr ⟨m, hm, by rw [if_neg hne]⟩
          · rw [hs']
            simp only [get_note_or_404]
            rw [get_after_map s.notes id
                  (fun m =>
                    { m with title := d.title, content := d.content,
                             category := d.category, status := d.status,
                             priority := d.priority, due_date := d.due_date,
                             is_pinned := d.is_pinned, updated_at := now })
                  (fun m => rfl)]
            rw [show s.notes.find? (fun m => m.id == id) = some n from hfind]
            simp [hid]
          · intro hpin
            have hfields := (nnf_ok_fields hnf).2.2.2.2.2
            rw [hfields, pin_token, hpin]

/-- Witness for C7: updating the single note of `w_store1` with a full form
and no pin token succeeds, bumps `updated_at`, and clears the pin flag. -/
theorem update_note_spec_witness :
    update_note w_store1 1 w_form_upd 5 =
      .ok ⟨[⟨1, "B", "body", "general", "done", "low", some "2026-03-05",
             false, false, false, 0, 5⟩], 2⟩ ∧
    (∃ n d, get_note_or_404 w_store1 1 = some n ∧ n.is_deleted = false ∧
      normalize_note_form w_form_upd = .ok d ∧
      (⟨[⟨1, "B", "body", "general", "done", "low", some "2026-03-05",
          false, false, false, 0, 5⟩], 2⟩ : Store).next_id = w_store1.next_id ∧
      (∀ m ∈ w_store1.notes, m.id ≠ 1 →
        m ∈ (⟨[⟨1, "B", "body", "general", "done", "low", some "2026-03-05",
                false, false, false, 0, 5⟩], 2⟩ : Store).notes) ∧
      get_note_or_404 (⟨[⟨1, "B", "body", "general", "done", "low", some "2026-03-05",
                          false, false, false, 0, 5⟩], 2⟩ : Store) 1 = some
        { n with title := d.title, content := d.content, category := d.category,
                 status := d.status, priority := d.priority,
                 due_date := d.due_date, is_pinned := d.is_pinned,
                 updated_at := 5 } ∧
      (w_form_upd "is_pinned" = none → d.is_pinned = false)) :=
  ⟨by decide, (update_note_spec w_store1 1 w_form_upd 5).2.2 _ (by decide)⟩

theorem mem_fetch_notes {f : Filters} {s : Store} {n : Note} :
    n ∈ fetch_notes f s ↔ n ∈ s.notes ∧ build_where_clause f n = true := by
  rw [fetch_notes, List.mem_insertionSort, List.mem_filter]

/-- Counterexample for C6: restoring an identifier that matches no row fails
with not-found, so restore is not failure-free. -/
theorem restore_note_missing_fails :
    restore_note empty_store 1 0 = .error .notFound := by decide

/-- C6 (amended): restore fails with not-found exactly when no row has the
identifier; it succeeds leaving the store unchanged when the note exists and
is not trashed; when the note is trashed it clears `is_deleted` and
`is_archived`, so the restored note satisfies the active view clause and not
the archived one, regardless of its archived state prior to trashing. -/
theorem restore_note_spec (s : Store) (id now : Nat) :
    (restore_note s id now = .error .notFound ↔ get_note_or_404 s id = none) ∧
    (∀ n, get_note_or_404 s id = some n → n.is_deleted = false →
      restore_note s id now = .ok s) ∧
    (∀ n, get_note_or_404 s id = some n → n.is_deleted = true →
      ∃ s', restore_note s id now = .ok s' ∧
        get_note_or_404 s' id = some
          { n with is_deleted := false, is_archived := false, updated_at := now } ∧
        view_clause "active"
          { n with is_deleted := false, is_archived := false, updated_at := now } = true ∧
        view_clause "archived"
          { n with is_deleted := false, is_archived := false, updated_at := now } = false) := by
  refine ⟨⟨?_, ?_⟩, ?_, ?_⟩
  · intro he
    cases hfind : get_note_or_404 s id with
    | none => rfl
    | some n =>
      exfalso
      cases hdel : n.is_deleted with
      | false => rw [restore_note_noop hfind hdel] at he; exact Except.noConfusion he
      | true => rw [restore_note_ok_eq hfind hdel] at he; exact Except.noConfusion he
  · intro hnone
    exact restore_note_none hnone
  · intro n hfind hdel
    exact restore_note_noop hfind hdel
  · intro n hfind hdel
    refine ⟨_, restore_note_ok_eq hfind hdel, ?_, by simp [view_clause], by simp [view_clause]⟩
    have hfind2 : s.notes.find? (fun m => m.id == id) = some n := hfind
    have hpa := @List.find?_some Note (fun m => m.id == id) n s.notes hfind2
    have hid : n.id = id := by simpa using hpa
    simp only [get_note_or_404]
    rw [get_after_map s.notes id
          (fun m => { m with is_deleted := false, is_archived := false, updated_at := now })
          (fun m => rfl), hfind2]
    simp [hid]

/-- C8: purge fails with not-found exactly when no row has the identifier —
in particular a non-trashed note purges just as well — and on success the row
is permanently gone: lookup by the id fails, no remaining row carries the id,
no listing under any filters returns a row with the id, and every other row
survives. -/
theorem purge_note_spec (s : Store) (id : Nat) :
    (purge_note s id = .error .notFound ↔ get_note_or_404 s id = none) ∧
    (∀ s', purge_note s id = .ok s' →
      get_note_or_404 s' id = none ∧
      (∀ m ∈ s'.notes, m.id ≠ id) ∧
      (∀ f m, m ∈ fetch_notes f s' → m.id ≠ id) ∧
      (∀ m ∈ s.notes, m.id ≠ id → m ∈ s'.notes) ∧
      s'.next_id = s.next_id) := by
  constructor
  · constructor
    · intro he
      cases hfind : get_note_or_404 s id with
      | none => rfl
      | some n =>
        exfalso
        rw [purge_note_ok_eq hfind] at he
        exact Except.noConfusion he
    · intro hnone
      exact purge_note_none hnone
  · intro s' hok
    cases hfind : get_note_or_404 s id with
    | none => rw [purge_note_none hfind] at hok; exact Except.noConfusion hok
    | some n =>
      rw [purge_note_ok_eq hfind] at hok
      have hs' := (Except.ok.inj hok).symm
      have hmem : ∀ m ∈ s'.notes, m.id ≠ id := by
        intro m hm
        rw [hs'] at hm
        have := (List.mem_filter.mp hm).2
        simpa using this
      refine ⟨?_, hmem, ?_, ?_, by rw [hs']⟩
      · rw [show get_note_or_404 s' id = s'.notes.find? (fun m => m.id == id) from rfl]
        rw [List.find?_eq_none]
        intro m hm
        simpa using hmem m hm
      · intro f m hmf
        exact hmem m (mem_fetch_notes.mp hmf).1
      · intro m hm hne
        rw [hs']
        exact List.mem_filter.mpr ⟨hm, by simpa using hne⟩

/-- C10: the JSON single-note endpoint does not treat trashed notes as
missing: whenever a row with the identifier exists — trashed or not — it
returns the serialized record with the flags as booleans, and it fails with
not-found exactly when no row has the identifier. -/
theorem note_detail_api_spec (s : Store) (id : Nat) :
    (note_detail_api s id = .error .notFound ↔ get_note_or_404 s id = none) ∧
    (∀ n, get_note_or_404 s id = some n →
      note_detail_api s id = .ok (serialize_note n) ∧
      (serialize_note n).is_pinned = n.is_pinned ∧
      (serialize_note n).is_archived = n.is_archived ∧
      (serialize_note n).is_deleted = n.is_deleted) := by
  constructor
  · constructor
    · intro he
      cases hfind : get_note_or_404 s id with
      | none => rfl
      | some n =>
        exfalso
        rw [show note_detail_api s id = .ok (serialize_note n) by simp [note_detail_api, hfind]] at he
        exact Except.noConfusion he
    · intro hnone
      simp [note_detail_api, hnone]
  · intro n hfind
    exact ⟨by simp [note_detail_api, hfind], rfl, rfl, rfl⟩

/-- Witness for C6 (amended): restoring the trashed note of `w_store2` lands
it back in the active view. -/
theorem restore_note_spec_witness :
    get_note_or_404 w_store2 1 =
      some ⟨1, "A", "", "general", "todo", "medium", none, false, false, true, 0, 1⟩ ∧
    (∃ s', restore_note w_store2 1 2 = .ok s' ∧
      get_note_or_404 s' 1 = some
        { (⟨1, "A", "", "general", "todo", "medium", none, false, false, true, 0, 1⟩ : Note) with
          is_deleted := false, is_archived := false, updated_at := 2 } ∧
      view_clause "active"
        { (⟨1, "A", "", "general", "todo", "medium", none, false, false, true, 0, 1⟩ : Note) with
          is_deleted := false, is_archived := false, updated_at := 2 } = true ∧
      view_clause "archived"
        { (⟨1, "A", "", "general", "todo", "medium", none, false, false, true, 0, 1⟩ : Note) with
          is_deleted := false, is_archived := false, updated_at := 2 } = false) :=
  ⟨by decide, (restore_note_spec w_store2 1 2).2.2 _ (by decide) (by decide)⟩

/-- Witness for C8: purging the lone (non-trashed) note of `w_store1`
removes it from the store and every listing. -/
theorem purge_note_spec_witness :
    purge_note w_store1 1 = .ok ⟨[], 2⟩ ∧
    (get_note_or_404 (⟨[], 2⟩ : Store) 1 = none ∧
      (∀ m ∈ (⟨[], 2⟩ : Store).notes, m.id ≠ 1) ∧
      (∀ f m, m ∈ fetch_notes f ⟨[], 2⟩ → m.id ≠ 1) ∧
      (∀ m ∈ w_store1.notes, m.id ≠ 1 → m ∈ (⟨[], 2⟩ : Store).notes) ∧
      (⟨[], 2⟩ : Store).next_id = w_store1.next_id) :=
  ⟨by decide, (purge_note_spec w_store1 1).2 _ (by decide)⟩

/-- Witness for C10: the single-note endpoint serves the trashed note of
`w_store2` instead of treating it as missing. -/
theorem note_detail_api_spec_witness :
    get_note_or_404 w_store2 1 =
      some ⟨1, "A", "", "general", "todo", "medium", none, false, false, true, 0, 1⟩ ∧
    (note_detail_api w_store2 1 =
      .ok (serialize_note ⟨1, "A", "", "general", "todo", "medium", none, false, false, true, 0, 1⟩) ∧
     (serialize_note (⟨1, "A", "", "general", "todo", "medium", none, false, false, true, 0, 1⟩ : Note)).is_pinned = (⟨1, "A", "", "general", "todo", "medium", none, false, false, true, 0, 1⟩ : Note).is_pinned ∧
     (serialize_note (⟨1, "A", "", "general", "todo", "medium", none, false, false, true, 0, 1⟩ : Note)).is_archived = (⟨1, "A", "", "general", "todo", "medium", none, false, false, true, 0, 1⟩ : Note).is_archived ∧
     (serialize_note (⟨1, "A", "", "general", "todo", "medium", none, false, false, true, 0, 1⟩ : Note)).is_deleted = (⟨1, "A", "", "general", "todo", "medium", none, false, false, true, 0, 1⟩ : Note).is_deleted) :=
  ⟨by decide, (note_detail_api_spec w_store2 1).2 _ (by decide)⟩

theorem id_unique {l : List Note} (hnd : (l.map Note.id).Nodup) {m n : Note}
    (hm : m ∈ l) (hn : n ∈ l) (hid : m.id = n.id) : m = n :=
  List.inj_on_of_nodup_map hnd hm hn hid

theorem store_ok_map_update {s : Store} (hs : store_ok s) {id : Nat} {n₀ : Note}
    (hfind : get_note_or_404 s id = some n₀) (t : Note → Note)
    (ht_id : ∀ m, (t m).id = m.id)
    (hflag : (t n₀).is_deleted = true → (t n₀).is_archived = false ∧ (t n₀).is_pinned = false) :
    store_ok ⟨s.notes.map (fun m => if m.id = id then t m else m), s.next_id⟩ := by
  obtain ⟨hbound, hnd, hclean⟩ := hs
  have hfind2 : s.notes.find? (fun m => m.id == id) = some n₀ := hfind
  have hmem₀ : n₀ ∈ s.notes := List.mem_of_find?_eq_some hfind2
  have hid₀ : n₀.id = id := by
    simpa using @List.find?_some Note (fun m => m.id == id) n₀ s.notes hfind2
  have hmap_id : (s.notes.map (fun m => if m.id = id then t m else m)).map Note.id
      = s.notes.map Note.id := by
    rw [List.map_map]
    apply List.map_congr_left
    intro m _
    by_cases h : m.id = id <;> simp [Function.comp, h, ht_id]
  refine ⟨?_, ?_, ?_⟩
  · intro m hm
    obtain ⟨m₀, hm₀, rfl⟩ := List.mem_map.mp hm
    by_cases h : m₀.id = id
    · rw [if_pos h]
      show (t m₀).id < s.next_id
      rw [ht_id]
      exact hbound m₀ hm₀
    · rw [if_neg h]
      exact hbound m₀ hm₀
  · show ((s.notes.map _).map Note.id).Nodup
    rw [hmap_id]
    exact hnd
  · intro m hm hdel
    obtain ⟨m₀, hm₀, hmeq⟩ := List.mem_map.mp hm
    by_cases h : m₀.id = id
    · have heq : m₀ = n₀ := id_unique hnd hm₀ hmem₀ (h.trans hid₀.symm)
      subst heq
      rw [if_pos h] at hmeq
      rw [← hmeq] at hdel ⊢
      exact hflag hdel
    · rw [if_neg h] at hmeq
      rw [← hmeq] at hdel ⊢
      exact hclean m₀ hm₀ hdel

theorem store_ok_reachable {s : Store} (h : Reachable s) : store_ok s := by
  induction h with
  | empty =>
    exact ⟨by simp [empty_store], by simp [empty_store], by simp [empty_store]⟩
  | @create s form now s' _ hop ih =>
    cases hnf : normalize_note_form form with
    | error e =>
      rw [show create_note s form now = .error e by simp [create_note, hnf]] at hop
      exact Except.noConfusion hop
    | ok d =>
      rw [create_note_ok_eq hnf] at hop
      obtain ⟨hbound, hnd, hclean⟩ := ih
      have hs' := (Except.ok.inj hop).symm
      rw [hs']
      refine ⟨?_, ?_, ?_⟩
      · intro m hm
        rcases List.mem_append.mp hm with hm | hm
        · exact Nat.lt_succ_of_lt (hbound m hm)
        · have : m = mk_note s.next_id d now := by simpa using hm
          rw [this]
          exact Nat.lt_succ_self _
      · rw [List.map_append]
        rw [List.nodup_append]
        refine ⟨hnd, by simp, ?_⟩
        intro a ha hb
        have hlt : a < s.next_id := by
          obtain ⟨m, hm, rfl⟩ := List.mem_map.mp ha
          exact hbound m hm
        have : a = s.next_id := by simpa [mk_note] using hb
        omega
      · intro m hm hdel
        rcases List.mem_append.mp hm with hm | hm
        · exact hclean m hm hdel
        · have : m = mk_note s.next_id d now := by simpa using hm
          rw [this] at hdel
          exact Bool.noConfusion hdel
  | @update s id form now s' _ hop ih =>
    cases hfind : get_note_or_404 s id with
    | none => rw [update_note_none hfind] at hop; exact Except.noConfusion hop
    | some n =>
      cases hdel : n.is_deleted with
      | true => rw [update_note_deleted hfind hdel] at hop; exact Except.noConfusion hop
      | false =>
        cases hnf : normalize_note_form form with
        | error e =>
          rw [update_note_invalid hfind hdel hnf] at hop
          exact Except.noConfusion hop
        | ok d =>
          rw [update_note_ok_eq hfind hdel hnf] at hop
          rw [← (Except.ok.inj hop)]
          refine store_ok_map_update ih hfind _ (fun m => rfl) ?_
          intro habs
          have : n.is_deleted = true := habs
          rw [hdel] at this
          exact Bool.noConfusion this
  | @pin s id now s' _ hop ih =>
    cases hfind : get_note_or_404 s id with
    | none => rw [show toggle_pin s id now = .error .notFound by simp [toggle_pin, hfind]] at hop
              exact Except.noConfusion hop
    | some n =>
      cases hdel : n.is_deleted with
      | true => rw [show toggle_pin s id now = .error .notFound by simp [toggle_pin, hfind, hdel]] at hop
                exact Except.noConfusion hop
      | false =>
        rw [toggle_pin_ok_eq hfind hdel] at hop
        rw [← (Except.ok.inj hop)]
        refine store_ok_map_update ih hfind _ (fun m => rfl) ?_
        intro habs
        have : n.is_deleted = true := habs
        rw [hdel] at this
        exact Bool.noConfusion this
  | @archive s id now s' _ hop ih =>
    cases hfind : get_note_or_404 s id with
    | none => rw [show toggle_archive s id now = .error .notFound by simp [toggle_archive, hfind]] at hop
              exact Except.noConfusion hop
    | some n =>
      cases hdel : n.is_deleted with
      | true => rw [show toggle_archive s id now = .error .notFound by simp [toggle_archive, hfind, hdel]] at hop
                exact Except.noConfusion hop
      | false =>
        rw [toggle_archive_ok_eq hfind hdel] at hop
        rw [← (Except.ok.inj hop)]
        refine store_ok_map_update ih hfind _ (fun m => rfl) ?_
        intro habs
        have : n.is_deleted = true := habs
        rw [hdel] at this
        exact Bool.noConfusion this
  | @trash s id now s' _ hop ih =>
    cases hfind : get_note_or_404 s id with
    | none => rw [move_to_trash_none hfind] at hop; exact Except.noConfusion hop
    | some n =>
      cases hdel : n.is_deleted with
      | true => rw [move_to_trash_deleted hfind hdel] at hop; exact Except.noConfusion hop
      | false =>
        rw [move_to_trash_ok_eq hfind hdel] at hop
        rw [← (Except.ok.inj hop)]
        exact store_ok_map_update ih hfind _ (fun m => rfl) (fun _ => ⟨rfl, rfl⟩)
  | @restore s id now s' _ hop ih =>
    cases hfind : get_note_or_404 s id with
    | none => rw [restore_note_none hfind] at hop; exact Except.noConfusion hop
    | some n =>
      cases hdel : n.is_deleted with
      | false =>
        rw [restore_note_noop hfind hdel] at hop
        rw [← (Except.ok.inj hop)]
        exact ih
      | true =>
        rw [restore_note_ok_eq hfind hdel] at hop
        rw [← (Except.ok.inj hop)]
        refine store_ok_map_update ih hfind _ (fun m => rfl) ?_
        intro habs
        exact Bool.noConfusion habs
  | @purge s id s' _ hop ih =>
    cases hfind : get_note_or_404 s id with
    | none => rw [purge_note_none hfind] at hop; exact Except.noConfusion hop
    | some n =>
      rw [purge_note_ok_eq hfind] at hop
      rw [← (Except.ok.inj hop)]
      obtain ⟨hbound, hnd, hclean⟩ := ih
      refine ⟨?_, ?_, ?_⟩
      · intro m hm
        exact hbound m (List.mem_filter.mp hm).1
      · show ((s.notes.filter _).map Note.id).Nodup
        exact List.Nodup.sublist (List.Sublist.map Note.id (List.filter_sublist s.notes)) hnd
      · intro m hm hdel
        exact hclean m (List.mem_filter.mp hm).1 hdel

/-- C1: trash fails with not-found when the note is missing or already
trashed, and otherwise sets `is_deleted` while clearing `is_archived` and
`is_pinned`; consequently, in every store reachable from the empty store via
the public operations, a trashed note carries no archive or pin flag, is
matched by the trash view clause, and is matched by neither the active nor
the archived view clause. -/
theorem move_to_trash_spec :
    (∀ s id now, move_to_trash s id now = .error .notFound ↔
      (get_note_or_404 s id = none ∨
        ∃ n, get_note_or_404 s id = some n ∧ n.is_deleted = true)) ∧
    (∀ s id now s', move_to_trash s id now = .ok s' →
      ∃ n, get_note_or_404 s id = some n ∧ n.is_deleted = false ∧
        get_note_or_404 s' id = some
          { n with is_deleted := true, is_archived := false,
                   is_pinned := false, updated_at := now }) ∧
    (∀ s, Reachable s → ∀ n ∈ s.notes, n.is_deleted = true →
      n.is_archived = false ∧ n.is_pinned = false ∧
      view_clause "trash" n = true ∧
      view_clause "active" n = false ∧
      view_clause "archived" n = false) := by
  refine ⟨?_, ?_, ?_⟩
  · intro s id now
    constructor
    · intro he
      cases hfind : get_note_or_404 s id with
      | none => exact Or.inl rfl
      | some n =>
        cases hdel : n.is_deleted with
        | true => exact Or.inr ⟨n, rfl, hdel⟩
        | false =>
          exfalso
          rw [move_to_trash_ok_eq hfind hdel] at he
          exact Except.noConfusion he
    · intro hcond
      rcases hcond with hnone | ⟨n, hfind, hdel⟩
      · exact move_to_trash_none hnone
      · exact move_to_trash_deleted hfind hdel
  · intro s id now s' hok
    cases hfind : get_note_or_404 s id with
    | none => rw [move_to_trash_none hfind] at hok; exact Except.noConfusion hok
    | some n =>
      cases hdel : n.is_deleted with
      | true =>
        rw [move_to_trash_deleted hfind hdel] at hok
        exact Except.noConfusion hok
      | false =>
        rw [move_to_trash_ok_eq hfind hdel] at hok
        have hs' := (Except.ok.inj hok).symm
        have hfind2 : s.notes.find? (fun m => m.id == id) = some n := hfind
        have hid : n.id = id := by
          simpa using @List.find?_some Note (fun m => m.id == id) n s.notes hfind2
        refine ⟨n, rfl, hdel, ?_⟩
        rw [hs']
        simp only [get_note_or_404]
        rw [get_after_map s.notes id
              (fun m =>
                { m with is_deleted := true, is_archived := false,
                         is_pinned := false, updated_at := now })
              (fun m => rfl), hfind2]
        simp [hid]
  · intro s hr n hn hdel
    have hclean := (store_ok_reachable hr).2.2 n hn hdel
    exact ⟨hclean.1, hclean.2,
      by simp [view_clause, hdel],
      by simp [view_clause, hdel],
      by simp [view_clause, hdel]⟩

/-- Witness for C1: the concrete store obtained by creating one note and
trashing it is reachable, and its trashed note carries no display flags and
sits only in the trash view. -/
theorem move_to_trash_spec_witness :
    Reachable w_store2 ∧
    (∀ n ∈ w_store2.notes, n.is_deleted = true →
      n.is_archived = false ∧ n.is_pinned = false ∧
      view_clause "trash" n = true ∧
      view_clause "active" n = false ∧
      view_clause "archived" n = false) := by
  have r1 : Reachable w_store1 :=
    Reachable.create Reachable.empty
      (show create_note empty_store w_form1 0 = .ok w_store1 by decide)
  have r2 : Reachable w_store2 :=
    Reachable.trash r1 (show move_to_trash w_store1 1 1 = .ok w_store2 by decide)
  exact ⟨r2, move_to_trash_spec.2.2 w_store2 r2⟩

theorem char_toNat_inj {a b : Char} (h : a.toNat = b.toNat) : a = b := by
  have hv : a.val = b.val := UInt32.toNat.inj h
  exact Char.eq_of_val_eq hv

theorem nat_then_self (x : Nat) (r : Bool) : nat_then x x r = r := by
  simp [nat_then]

theorem nat_then_total {x y : Nat} {r r' : Bool} (h : r = true ∨ r' = true) :
    nat_then x y r = true ∨ nat_then y x r' = true := by
  rcases Nat.lt_trichotomy x y with hlt | heq | hgt
  · left; simp [nat_then, hlt]
  · subst heq
    rcases h with h | h
    · left; simp [nat_then, h]
    · right; simp [nat_then, h]
  · right; simp [nat_then, hgt]

theorem nat_then_trans {x y z : Nat} {r1 r2 r3 : Bool}
    (hr : r1 = true → r2 = true → r3 = true)
    (h1 : nat_then x y r1 = true) (h2 : nat_then y z r2 = true) :
    nat_then x z r3 = true := by
  simp only [nat_then, Bool.or_eq_true, Bool.and_eq_true, decide_eq_true_eq] at h1 h2 ⊢
  rcases h1 with h1 | ⟨hxy, hr1⟩
  · rcases h2 with h2 | ⟨hyz, _⟩
    · exact Or.inl (Nat.lt_trans h1 h2)
    · subst hyz; exact Or.inl h1
  · subst hxy
    rcases h2 with h2 | ⟨hyz, hr2⟩
    · exact Or.inl h2
    · subst hyz; exact Or.inr ⟨rfl, hr hr1 hr2⟩

theorem chars_lt_irrefl (l : List Char) : chars_lt l l = false := by
  induction l with
  | nil => rfl
  | cons c cs ih => simp [chars_lt, ih]

theorem chars_lt_trans {a : List Char} : ∀ {b c : List Char},
    chars_lt a b = true → chars_lt b c = true → chars_lt a c = true := by
  induction a with
  | nil =>
    intro b c hab hbc
    cases b with
    | nil => exact absurd hab (by simp [chars_lt])
    | cons y ys =>
      cases c with
      | nil => exact absurd hbc (by simp [chars_lt])
      | cons z zs => simp [chars_lt]
  | cons x xs ih =>
    intro b c hab hbc
    cases b with
    | nil => exact absurd hab (by simp [chars_lt])
    | cons y ys =>
      cases c with
      | nil => exact absurd hbc (by simp [chars_lt])
      | cons z zs =>
        simp only [chars_lt, Bool.or_eq_true, Bool.and_eq_true, decide_eq_true_eq] at hab hbc ⊢
        rcases hab with h1 | ⟨hxy, h1⟩
        · rcases hbc with h2 | ⟨hyz, _⟩
          · exact Or.inl (Nat.lt_trans h1 h2)
          · subst hyz; exact Or.inl h1
        · subst hxy
          rcases hbc with h2 | ⟨hyz, h2⟩
          · exact Or.inl h2
          · subst hyz; exact Or.inr ⟨rfl, ih h1 h2⟩

theorem chars_lt_trichotomy (a : List Char) : ∀ (b : List Char),
    chars_lt a b = true ∨ a = b ∨ chars_lt b a = true := by
  induction a with
  | nil =>
    intro b
    cases b with
    | nil => exact Or.inr (Or.inl rfl)
    | cons y ys => exact Or.inl (by simp [chars_lt])
  | cons x xs ih =>
    intro b
    cases b with
    | nil => exact Or.inr (Or.inr (by simp [chars_lt]))
    | cons y ys =>
      rcases Nat.lt_trichotomy x.toNat y.toNat with hlt | heq | hgt
      · exact Or.inl (by simp [chars_lt, hlt])
      · have hxy : x = y := char_toNat_inj heq
        subst hxy
        rcases ih ys with h | h | h
        · exact Or.inl (by simp [chars_lt, h])
        · exact Or.inr (Or.inl (by rw [h]))
        · exact Or.inr (Or.inr (by simp [chars_lt, h]))
      · exact Or.inr (Or.inr (by simp [chars_lt, hgt]))

theorem opt_lt_irrefl (o : Option String) : opt_lt o o = false := by
  cases o with
  | none => rfl
  | some a => simpa [opt_lt] using chars_lt_irrefl a.data

theorem opt_lt_trans {a b c : Option String}
    (h1 : opt_lt a b = true) (h2 : opt_lt b c = true) : opt_lt a c = true := by
  cases a with
  | none =>
    cases b with
    | none => exact absurd h1 (by simp [opt_lt])
    | some vb =>
      cases c with
      | none => exact absurd h2 (by simp [opt_lt])
      | some vc => simp [opt_lt]
  | some va =>
    cases b with
    | none => exact absurd h1 (by simp [opt_lt])
    | some vb =>
      cases c with
      | none => exact absurd h2 (by simp [opt_lt])
      | some vc =>
        simp only [opt_lt] at h1 h2 ⊢
        exact chars_lt_trans h1 h2

theorem opt_lt_trichotomy (a b : Option String) :
    opt_lt a b = true ∨ a = b ∨ opt_lt b a = true := by
  cases a with
  | none =>
    cases b with
    | none => exact Or.inr (Or.inl rfl)
    | some vb => exact Or.inl rfl
  | some va =>
    cases b with
    | none => exact Or.inr (Or.inr rfl)
    | some vb =>
      rcases chars_lt_trichotomy va.data vb.data with h | h | h
      · exact Or.inl (by simpa [opt_lt] using h)
      · exact Or.inr (Or.inl (by rw [String.ext h]))
      · exact Or.inr (Or.inr (by simpa [opt_lt] using h))

theorem opt_then_total {o1 o2 : Option String} {r r' : Bool} (h : r = true ∨ r' = true) :
    opt_then o1 o2 r = true ∨ opt_then o2 o1 r' = true := by
  rcases opt_lt_trichotomy o1 o2 with hlt | heq | hgt
  · left; simp [opt_then, hlt]
  · subst heq
    rcases h with h | h
    · left; simp [opt_then, h]
    · right; simp [opt_then, h]
  · right; simp [opt_then, hgt]

theorem opt_then_trans {o1 o2 o3 : Option String} {r1 r2 r3 : Bool}
    (hr : r1 = true → r2 = true → r3 = true)
    (h1 : opt_then o1 o2 r1 = true) (h2 : opt_then o2 o3 r2 = true) :
    opt_then o1 o3 r3 = true := by
  simp only [opt_then, Bool.or_eq_true, Bool.and_eq_true, decide_eq_true_eq] at h1 h2 ⊢
  rcases h1 with h1 | ⟨he1, hr1⟩
  · rcases h2 with h2 | ⟨he2, _⟩
    · exact Or.inl (opt_lt_trans h1 h2)
    · subst he2; exact Or.inl h1
  · subst he1
    rcases h2 with h2 | ⟨he2, hr2⟩
    · exact Or.inl h2
    · subst he2; exact Or.inr ⟨rfl, hr hr1 hr2⟩

theorem note_le_total (a b : Note) : note_le a b = true ∨ note_le b a = true := by
  unfold note_le
  refine nat_then_total (nat_then_total (nat_then_total (opt_then_total (nat_then_total ?_))))
  rcases Nat.le_total b.id a.id with h | h
  · left; simpa using h
  · right; simpa using h

theorem note_le_trans_aux5 (a b c : Note) :
    nat_then b.updated_at a.updated_at (decide (b.id ≤ a.id)) = true →
    nat_then c.updated_at b.updated_at (decide (c.id ≤ b.id)) = true →
    nat_then c.updated_at a.updated_at (decide (c.id ≤ a.id)) = true := by
  intro h1 h2
  refine nat_then_trans ?_ h2 h1
  intro ha hb
  simp only [decide_eq_true_eq] at ha hb ⊢
  omega

theorem note_le_trans_aux4 (a b c : Note) :
    opt_then a.due_date b.due_date
      (nat_then b.updated_at a.updated_at (decide (b.id ≤ a.id))) = true →
    opt_then b.due_date c.due_date
      (nat_then c.updated_at b.updated_at (decide (c.id ≤ b.id))) = true →
    opt_then a.due_date c.due_date
      (nat_then c.updated_at a.updated_at (decide (c.id ≤ a.id))) = true :=
  opt_then_trans (note_le_trans_aux5 a b c)

theorem note_le_trans_aux3 (a b c : Note) :
    nat_then (due_flag_key a) (due_flag_key b)
      (opt_then a.due_date b.due_date
        (nat_then b.updated_at a.updated_at (decide (b.id ≤ a.id)))) = true →
    nat_then (due_flag_key b) (due_flag_key c)
      (opt_then b.due_date c.due_date
        (nat_then c.updated_at b.updated_at (decide (c.id ≤ b.id)))) = true →
    nat_then (due_flag_key a) (due_flag_key c)
      (opt_then a.due_date c.due_date
        (nat_then c.updated_at a.updated_at (decide (c.id ≤ a.id)))) = true :=
  nat_then_trans (note_le_trans_aux4 a b c)

theorem note_le_trans_aux2 (a b c : Note) :
    nat_then (priority_key a) (priority_key b)
      (nat_then (due_flag_key a) (due_flag_key b)
        (opt_then a.due_date b.due_date
          (nat_then b.updated_at a.updated_at (decide (b.id ≤ a.id))))) = true →
    nat_then (priority_key b) (priority_key c)
      (nat_then (due_flag_key b) (due_flag_key c)
        (opt_then b.due_date c.due_date
          (nat_then c.updated_at b.updated_at (decide (c.id ≤ b.id))))) = true →
    nat_then (priority_key a) (priority_key c)
      (nat_then (due_flag_key a) (due_flag_key c)
        (opt_then a.due_date c.due_date
          (nat_then c.updated_at a.updated_at (decide (c.id ≤ a.id))))) = true :=
  nat_then_trans (note_le_trans_aux3 a b c)

theorem note_le_trans {a b c : Note}
    (h1 : note_le a b = true) (h2 : note_le b c = true) : note_le a c = true := by
  unfold note_le at h1 h2 ⊢
  exact nat_then_trans (note_le_trans_aux2 a b c) h1 h2

instance : IsTotal Note sql_le := ⟨fun a b => note_le_total a b⟩

instance : IsTrans Note sql_le := ⟨fun _ _ _ => note_le_trans⟩

theorem fetch_notes_sorted_pairwise (f : Filters) (s : Store) :
    (fetch_notes f s).Pairwise sql_le :=
  List.sorted_insertionSort sql_le _

theorem fetch_notes_perm_filter (f : Filters) (s : Store) :
    List.Perm (fetch_notes f s) (s.notes.filter (build_where_clause f)) :=
  List.perm_insertionSort sql_le _

theorem note_le_pinned_first {a b : Note} (ha : a.is_pinned = true) (hb : b.is_pinned = false) :
    note_le a b = true ∧ note_le b a = false := by
  constructor
  · unfold note_le
    simp [nat_then, pin_key, ha, hb]
  · unfold note_le
    simp [nat_then, pin_key, ha, hb]

theorem note_le_due_first {a b : Note} (hpa : a.is_pinned = false) (hpb : b.is_pinned = false)
    (hpr : a.priority = b.priority) {da db : String}
    (hda : a.due_date = some da) (hdb : b.due_date = some db)
    (hne : da ≠ "") (hne' : db ≠ "") (hlt : chars_lt da.data db.data = true) :
    note_le a b = true ∧ note_le b a = false := by
  have hprio : priority_key a = priority_key b := by
    rw [priority_key, priority_key, hpr]
  have hasym : chars_lt db.data da.data = false := by
    cases hx : chars_lt db.data da.data with
    | false => rfl
    | true =>
      have habs := chars_lt_trans hlt hx
      rw [chars_lt_irrefl] at habs
      exact Bool.noConfusion habs
  have hneq : db ≠ da := by
    intro h
    subst h
    rw [chars_lt_irrefl] at hlt
    exact Bool.noConfusion hlt
  constructor
  · unfold note_le
    rw [pin_key, pin_key, hpa, hpb, nat_then_self, hprio, nat_then_self]
    simp only [due_flag_key, hda, hdb, if_neg hne, if_neg hne', nat_then_self]
    simp [opt_then, opt_lt, hlt]
  · unfold note_le
    rw [pin_key, pin_key, hpb, hpa, nat_then_self, hprio.symm, nat_then_self]
    simp only [due_flag_key, hda, hdb, if_neg hne, if_neg hne', nat_then_self]
    simp [opt_then, opt_lt, hasym, hneq]

theorem sorted_position {l : List Note} (h : l.Pairwise sql_le) {a b : Note}
    {i j : Nat} (hi : i < l.length) (hj : j < l.length)
    (ha : l.get ⟨i, hi⟩ = a) (hb : l.get ⟨j, hj⟩ = b)
    (hab : note_le a b = true) (hba : note_le b a = false) : i < j := by
  rcases Nat.lt_trichotomy i j with hlt | heq | hgt
  · exact hlt
  · exfalso
    subst heq
    have heq' : a = b := by rw [← ha, ← hb]
    subst heq'
    rw [hab] at hba
    exact Bool.noConfusion hba
  · exfalso
    have hp := List.pairwise_iff_get.mp h ⟨j, hj⟩ ⟨i, hi⟩ (Fin.mk_lt_mk.mpr hgt)
    rw [ha, hb] at hp
    have hp' : note_le b a = true := hp
    rw [hba] at hp'
    exact Bool.noConfusion hp'

/-- C3: the listing always sorts by the fixed precedence — pinned first, then
priority rank (high, medium, low), then rows with a due date before rows
without, then due date ascending, then last-updated descending, then
identifier descending — independent of the filters: every listing is
pairwise ordered by the comparison and is a permutation of the rows matching
the WHERE clause; of two unpinned notes with the same priority the one with
the earlier due date sorts strictly first, a pinned low-priority note sorts
strictly before any unpinned high-priority note, and a strictly smaller note
always appears at a smaller index of the listing. -/
theorem fetch_notes_sort_spec :
    (∀ f s, (fetch_notes f s).Pairwise sql_le) ∧
    (∀ f s, List.Perm (fetch_notes f s) (s.notes.filter (build_where_clause f))) ∧
    (∀ a b : Note, a.is_pinned = false → b.is_pinned = false →
      a.priority = b.priority →
      ∀ da db : String, a.due_date = some da → b.due_date = some db →
      da ≠ "" → db ≠ "" → chars_lt da.data db.data = true →
      note_le a b = true ∧ note_le b a = false) ∧
    (∀ a b : Note, a.is_pinned = true → b.is_pinned = false →
      a.priority = "low" → b.priority = "high" →
      note_le a b = true ∧ note_le b a = false) ∧
    (∀ f s (a b : Note) (i j : Nat),
      ∀ (hi : i < (fetch_notes f s).length) (hj : j < (fetch_notes f s).length),
      (fetch_notes f s).get ⟨i, hi⟩ = a → (fetch_notes f s).get ⟨j, hj⟩ = b →
      note_le a b = true → note_le b a = false → i < j) := by
  refine ⟨fetch_notes_sorted_pairwise, fetch_notes_perm_filter, ?_, ?_, ?_⟩
  · intro a b hpa hpb hpr da db hda hdb hne hne' hlt
    exact note_le_due_first hpa hpb hpr hda hdb hne hne' hlt
  · intro a b ha hb _ _
    exact note_le_pinned_first ha hb
  · intro f s a b i j hi hj ha hb hab hba
    exact sorted_position (fetch_notes_sorted_pairwise f s) hi hj ha hb hab hba

/-- Witness for C3: on a concrete three-note store the pinned low-priority
note sorts strictly before the unpinned high-priority one, the earlier due
date wins among equal-priority unpinned notes, and the listing places the
strictly smaller note at the smaller index. -/
theorem fetch_notes_sort_spec_witness :
    (note_le w_pinned_low w_unpinned_high = true ∧
     note_le w_unpinned_high w_pinned_low = false) ∧
    (note_le w_unpinned_high w_unpinned_high_late = true ∧
     note_le w_unpinned_high_late w_unpinned_high = false) ∧
    (1 : Nat) < 2 := by
  refine ⟨?_, ?_, ?_⟩
  · exact fetch_notes_sort_spec.2.2.2.1 w_pinned_low w_unpinned_high rfl rfl rfl rfl
  · exact fetch_notes_sort_spec.2.2.1 w_unpinned_high w_unpinned_high_late rfl rfl rfl
      "2026-03-01" "2026-04-01" rfl rfl (by decide) (by decide) (by decide)
  · exact fetch_notes_sort_spec.2.2.2.2 w_filters_active w_sort_store
      w_unpinned_high w_unpinned_high_late 1 2 (by decide) (by decide)
      (by decide) (by decide) (by decide) (by decide)

theorem tails_any_iff {f : List Char → Bool} {s : List Char} :
    tails_any f s = true ↔ ∃ k, f (s.drop k) = true := by
  induction s with
  | nil =>
    simp [tails_any]
  | cons c cs ih =>
    simp only [tails_any, Bool.or_eq_true, ih]
    constructor
    · rintro (h | ⟨k, hk⟩)
      · exact ⟨0, h⟩
      · exact ⟨k + 1, hk⟩
    · rintro ⟨k, hk⟩
      cases k with
      | zero => exact Or.inl hk
      | succ k => exact Or.inr ⟨k, hk⟩

theorem like_match_pct (s : List Char) : like_match ['%'] s = true := by
  have h : like_match ['%'] s = tails_any (like_match []) s := by
    simp [like_match]
  rw [h, tails_any_iff]
  exact ⟨s.length, by simp [like_match]⟩

theorem starts_with_ci_like {q : List Char} (hq : ∀ c ∈ q, ¬ c = '%' ∧ ¬ c = '_') :
    ∀ s, like_match (q ++ ['%']) s = true ↔
      starts_with (q.map ascii_lower) (s.map ascii_lower) = true := by
  induction q with
  | nil =>
    intro s
    simp only [List.nil_append, List.map_nil]
    constructor
    · intro _
      rfl
    · intro _
      exact like_match_pct s
  | cons p ps ih =>
    intro s
    have hp := hq p (List.mem_cons_self p ps)
    have hq' : ∀ c ∈ ps, ¬ c = '%' ∧ ¬ c = '_' :=
      fun c hc => hq c (List.mem_cons_of_mem p hc)
    cases s with
    | nil =>
      constructor
      · intro h
        exfalso
        rw [show (p :: ps) ++ ['%'] = p :: (ps ++ ['%']) from rfl] at h
        simp [like_match, hp.1] at h
      · intro h
        exfalso
        simp [starts_with] at h
    | cons c cs =>
      rw [show (p :: ps) ++ ['%'] = p :: (ps ++ ['%']) from rfl]
      simp only [like_match, if_neg hp.1, List.map_cons, starts_with]
      simp only [like_eq, Bool.and_eq_true, Bool.or_eq_true, decide_eq_true_eq]
      constructor
      · rintro ⟨h1 | h1, h2⟩
        · exact absurd h1 hp.2
        · exact ⟨h1, (ih hq' cs).mp h2⟩
      · rintro ⟨h1, h2⟩
        exact ⟨Or.inr h1, (ih hq' cs).mpr h2⟩

theorem has_sub_iff {q s : List Char} :
    has_sub q s = true ↔ ∃ k, starts_with q (s.drop k) = true := by
  induction s with
  | nil =>
    simp [has_sub]
  | cons c cs ih =>
    simp only [has_sub, Bool.or_eq_true, ih]
    constructor
    · rintro (h | ⟨k, hk⟩)
      · exact ⟨0, h⟩
      · exact ⟨k + 1, hk⟩
    · rintro ⟨k, hk⟩
      cases k with
      | zero => exact Or.inl hk
      | succ k => exact Or.inr ⟨k, hk⟩

/-- Counterexample for C2: the query builder does not escape `LIKE`
wildcards, so the raw query `a\x25b` makes the listing return a note none of
whose fields contains the raw query as a substring. -/
theorem text_query_wildcard_leak :
    w_note_axb ∈ fetch_notes w_filters_wild w_store_axb ∧
    has_sub "a%b".data w_note_axb.title.data = false ∧
    has_sub "a%b".data w_note_axb.content.data = false ∧
    has_sub "a%b".data w_note_axb.category.data = false := by
  refine ⟨by decide, by decide, by decide, by decide⟩

/-- C2 (amended): for a canonical filter record with a non-empty text query
and no status, priority or category constraint, the builder adds one clause
built from one unescaped wildcard pattern per field — the same raw query
reused for title, content and category — so the listing returns exactly the
notes of the selected view whose title, content or category matches the
SQLite LIKE pattern, with `%` and `_` in the raw query acting as wildcards
and letters compared ASCII-case-insensitively; for a raw query containing no
wildcard characters the pattern match coincides with case-insensitive
substring containment. -/
theorem fetch_notes_text_query_spec :
    (∀ f s n, f.q ≠ "" → f.status = "all" → f.priority = "all" → f.category = "all" →
      (n ∈ fetch_notes f s ↔ n ∈ s.notes ∧ view_clause f.view n = true ∧
        (like_match (wildcard_pat f.q) n.title.data = true ∨
         like_match (wildcard_pat f.q) n.content.data = true ∨
         like_match (wildcard_pat f.q) n.category.data = true))) ∧
    (∀ (q : String) (t : List Char), no_wildcards q = true →
      (like_match (wildcard_pat q) t = true ↔
        has_sub (q.data.map ascii_lower) (t.map ascii_lower) = true)) := by
  constructor
  · intro f s n hq hst hpr hca
    rw [mem_fetch_notes]
    constructor
    · rintro ⟨hmem, hcl⟩
      rw [build_where_clause, hst, hpr, hca] at hcl
      simp only [Bool.and_eq_true, Bool.or_eq_true, decide_eq_true_eq, text_clause] at hcl
      obtain ⟨⟨⟨⟨hview, htext⟩, _⟩, _⟩, _⟩ := hcl
      rcases htext with hbad | htext
      · exact absurd hbad hq
      · exact ⟨hmem, hview, or_assoc.mp htext⟩
    · rintro ⟨hmem, hview, htext⟩
      refine ⟨hmem, ?_⟩
      rw [build_where_clause, hst, hpr, hca]
      simp only [Bool.and_eq_true, Bool.or_eq_true, decide_eq_true_eq, text_clause]
      exact ⟨⟨⟨⟨hview, Or.inr (or_assoc.mpr htext)⟩, Or.inl trivial⟩, Or.inl trivial⟩,
        Or.inl trivial⟩
  · intro q t hnw
    have hq' : ∀ c ∈ q.data, ¬ c = '%' ∧ ¬ c = '_' := by
      intro c hc
      have := List.all_eq_true.mp hnw c hc
      simpa using this
    have h1 : like_match (wildcard_pat q) t = tails_any (like_match (q.data ++ ['%'])) t := by
      simp [wildcard_pat, like_match]
    rw [h1, tails_any_iff, has_sub_iff]
    apply exists_congr
    intro k
    rw [starts_with_ci_like hq' (t.drop k), List.map_drop]

/-- Witness for C2 (amended): searching for `alpha` returns the note titled
`the Alpha note` (case-insensitively), and on this wildcard-free query the
LIKE pattern agrees with case-insensitive substring containment. -/
theorem fetch_notes_text_query_spec_witness :
    (w_note_alpha ∈ fetch_notes w_filters_alpha w_store_alpha ↔
      w_note_alpha ∈ w_store_alpha.notes ∧
      view_clause w_filters_alpha.view w_note_alpha = true ∧
      (like_match (wildcard_pat w_filters_alpha.q) w_note_alpha.title.data = true ∨
       like_match (wildcard_pat w_filters_alpha.q) w_note_alpha.content.data = true ∨
       like_match (wildcard_pat w_filters_alpha.q) w_note_alpha.category.data = true)) ∧
    (like_match (wildcard_pat "alpha") "the Alpha note".data = true ↔
      has_sub ("alpha".data.map ascii_lower) ("the Alpha note".data.map ascii_lower) = true) :=
  ⟨fetch_notes_text_query_spec.1 w_filters_alpha w_store_alpha w_note_alpha
      (by decide) rfl rfl rfl,
   fetch_notes_text_query_spec.2 "alpha" "the Alpha note".data (by decide)⟩

theorem dropWhile_idem {p : Char → Bool} (l : List Char) :
    (l.dropWhile p).dropWhile p = l.dropWhile p := by
  induction l with
  | nil => rfl
  | cons c cs ih =>
    by_cases h : p c = true
    · simp only [List.dropWhile_cons, h, if_true]
      exact ih
    · simp [List.dropWhile_cons, h]

theorem rtrim_fix_generic {p : Char → Bool} {l : List Char} (h : l.dropWhile p = l) :
    ((l.reverse.dropWhile p).reverse).dropWhile p = (l.reverse.dropWhile p).reverse := by
  cases l with
  | nil => simp
  | cons c cs =>
    have hc : ¬ p c = true := by
      intro hcc
      have h1 : (c :: cs).dropWhile p = cs.dropWhile p := by
        simp [List.dropWhile_cons, hcc]
      have h2 : cs.dropWhile p = c :: cs := by rw [← h1, h]
      have h3 : (cs.dropWhile p).length ≤ cs.length :=
        (List.dropWhile_sublist p).length_le
      rw [h2] at h3
      simp at h3
    rw [List.reverse_cons, List.dropWhile_append]
    by_cases hnil : (cs.reverse.dropWhile p).isEmpty
    · simp only [hnil, if_true]
      simp [List.dropWhile_cons, hc]
    · simp only [hnil, if_false, List.reverse_append]
      simp [List.dropWhile_cons, hc]

theorem sqlite_trim_idem (s : String) : sqlite_trim (sqlite_trim s) = sqlite_trim s := by
  apply String.ext
  have hu : (s.data.dropWhile (fun c => c = ' ')).dropWhile (fun c => c = ' ')
      = s.data.dropWhile (fun c => c = ' ') := dropWhile_idem _
  have hz := rtrim_fix_generic hu
  show ((((sqlite_trim s).data.dropWhile _).reverse.dropWhile _).reverse) = (sqlite_trim s).data
  have hdata : (sqlite_trim s).data
      = ((s.data.dropWhile (fun c => c = ' ')).reverse.dropWhile (fun c => c = ' ')).reverse := rfl
  rw [hdata, hz, List.reverse_reverse, dropWhile_idem]

theorem rawrow_eq {a b : RawRow}
    (h1 : a.id = b.id) (h2 : a.title = b.title) (h3 : a.content = b.content)
    (h4 : a.category = b.category) (h5 : a.status = b.status)
    (h6 : a.priority = b.priority) (h7 : a.due_date = b.due_date)
    (h8 : a.is_pinned = b.is_pinned) (h9 : a.is_archived = b.is_archived)
    (h10 : a.is_deleted = b.is_deleted) (h11 : a.created_at = b.created_at)
    (h12 : a.updated_at = b.updated_at) : a = b := by
  cases a
  cases b
  simp only [RawRow.mk.injEq]
  exact ⟨h1, h2, h3, h4, h5, h6, h7, h8, h9, h10, h11, h12⟩

theorem normalize_row_idem (r : RawRow) :
    normalize_row (normalize_row r) = normalize_row r := by
  refine rawrow_eq rfl rfl rfl ?_ ?_ ?_ rfl ?_ ?_ ?_ rfl rfl
  · show (match (normalize_row r).category with
      | none => some "general"
      | some c => if sqlite_trim c = "" then some "general" else some (sqlite_trim c))
      = (normalize_row r).category
    cases hc : r.category with
    | none =>
      have : (normalize_row r).category = some "general" := by simp [normalize_row, hc]
      rw [this]
      decide
    | some c =>
      by_cases hb : sqlite_trim c = ""
      · have : (normalize_row r).category = some "general" := by
          simp [normalize_row, hc, hb]
        rw [this]
        decide
      · have hcc : (normalize_row r).category = some (sqlite_trim c) := by
          simp [normalize_row, hc, hb]
        rw [hcc]
        show (if sqlite_trim (sqlite_trim c) = "" then some "general"
              else some (sqlite_trim (sqlite_trim c))) = some (sqlite_trim c)
        rw [sqlite_trim_idem, if_neg hb]
  · show (match (normalize_row r).status with
      | some v => if STATUSES.contains v then some v else some "todo"
      | none => some "todo") = (normalize_row r).status
    cases hs : r.status with
    | none =>
      have : (normalize_row r).status = some "todo" := by simp [normalize_row, hs]
      rw [this]
      decide
    | some v =>
      by_cases hv : STATUSES.contains v = true
      · have hfield : (normalize_row r).status = some v := by
          show (match r.status with
            | some v => if STATUSES.contains v then some v else some "todo"
            | none => some "todo") = some v
          rw [hs]
          show (if STATUSES.contains v = true then some v else some "todo") = some v
          rw [if_pos hv]
        rw [hfield]
        show (if STATUSES.contains v = true then some v else some "todo") = some v
        rw [if_pos hv]
      · have hfield : (normalize_row r).status = some "todo" := by
          show (match r.status with
            | some v => if STATUSES.contains v then some v else some "todo"
            | none => some "todo") = some "todo"
          rw [hs]
          show (if STATUSES.contains v = true then some v else some "todo") = some "todo"
          rw [if_neg hv]
        rw [hfield]
        decide
  · show (match (normalize_row r).priority with
      | some v => if PRIORITIES.contains v then some v else some "medium"
      | none => some "medium") = (normalize_row r).priority
    cases hs : r.priority with
    | none =>
      have : (normalize_row r).priority = some "medium" := by simp [normalize_row, hs]
      rw [this]
      decide
    | some v =>
      by_cases hv : PRIORITIES.contains v = true
      · have hfield : (normalize_row r).priority = some v := by
          show (match r.priority with
            | some v => if PRIORITIES.contains v then some v else some "medium"
            | none => some "medium") = some v
          rw [hs]
          show (if PRIORITIES.contains v = true then some v else some "medium") = some v
          rw [if_pos hv]
        rw [hfield]
        show (if PRIORITIES.contains v = true then some v else some "medium") = some v
        rw [if_pos hv]
      · have hfield : (normalize_row r).priority = some "medium" := by
          show (match r.priority with
            | some v => if PRIORITIES.contains v then some v else some "medium"
            | none => some "medium") = some "medium"
          rw [hs]
          show (if PRIORITIES.contains v = true then some v else some "medium") = some "medium"
          rw [if_neg hv]
        rw [hfield]
        decide
  · show (match (normalize_row r).is_pinned with
      | none => some 0
      | some k => some k) = (normalize_row r).is_pinned
    cases hs : r.is_pinned with
    | none =>
      have : (normalize_row r).is_pinned = some 0 := by simp [normalize_row, hs]
      rw [this]
    | some k =>
      have : (normalize_row r).is_pinned = some k := by simp [normalize_row, hs]
      rw [this]
  · show (match (normalize_row r).is_archived with
      | none => some 0
      | some k => some k) = (normalize_row r).is_archived
    cases hs : r.is_archived with
    | none =>
      have : (normalize_row r).is_archived = some 0 := by simp [normalize_row, hs]
      rw [this]
    | some k =>
      have : (normalize_row r).is_archived = some k := by simp [normalize_row, hs]
      rw [this]
  · show (match (normalize_row r).is_deleted with
      | none => some 0
      | some k => some k) = (normalize_row r).is_deleted
    cases hs : r.is_deleted with
    | none =>
      have : (normalize_row r).is_deleted = some 0 := by simp [normalize_row, hs]
      rw [this]
    | some k =>
      have : (normalize_row r).is_deleted = some k := by simp [normalize_row, hs]
      rw [this]

/-- C9: the schema-setup row pass is idempotent and non-destructive: it
removes no row, leaves id, title, content, due date and both timestamps of
every row unchanged, coerces status and priority into their enums (defaults
todo and medium for out-of-range or NULL values), coerces blank or NULL
category to "general" (trimming surrounding spaces otherwise), replaces NULL
flags by 0 while keeping stored integers, and running it a second time
changes nothing. -/
theorem ensure_notes_schema_spec :
    (∀ rows : List RawRow, (ensure_notes_schema rows).length = rows.length) ∧
    (∀ rows : List RawRow,
      ensure_notes_schema (ensure_notes_schema rows) = ensure_notes_schema rows) ∧
    (∀ r : RawRow,
      (normalize_row r).id = r.id ∧
      (normalize_row r).title = r.title ∧
      (normalize_row r).content = r.content ∧
      (normalize_row r).due_date = r.due_date ∧
      (normalize_row r).created_at = r.created_at ∧
      (normalize_row r).updated_at = r.updated_at ∧
      (∀ v, r.status = some v → STATUSES.contains v = true →
        (normalize_row r).status = some v) ∧
      (∀ v, r.status = some v → STATUSES.contains v = false →
        (normalize_row r).status = some "todo") ∧
      (r.status = none → (normalize_row r).status = some "todo") ∧
      (∀ v, r.priority = some v → PRIORITIES.contains v = true →
        (normalize_row r).priority = some v) ∧
      (∀ v, r.priority = some v → PRIORITIES.contains v = false →
        (normalize_row r).priority = some "medium") ∧
      (r.priority = none → (normalize_row r).priority = some "medium") ∧
      (r.category = none → (normalize_row r).category = some "general") ∧
      (∀ c, r.category = some c → sqlite_trim c = "" →
        (normalize_row r).category = some "general") ∧
      (∀ c, r.category = some c → sqlite_trim c ≠ "" →
        (normalize_row r).category = some (sqlite_trim c)) ∧
      (r.is_pinned = none → (normalize_row r).is_pinned = some 0) ∧
      (∀ k, r.is_pinned = some k → (normalize_row r).is_pinned = some k) ∧
      (r.is_archived = none → (normalize_row r).is_archived = some 0) ∧
      (∀ k, r.is_archived = some k → (normalize_row r).is_archived = some k) ∧
      (r.is_deleted = none → (normalize_row r).is_deleted = some 0) ∧
      (∀ k, r.is_deleted = some k → (normalize_row r).is_deleted = some k)) ∧
    (∀ (rows : List RawRow) (i : Nat) (hi : i < rows.length)
      (hi' : i < (ensure_notes_schema rows).length),
      (ensure_notes_schema rows).get ⟨i, hi'⟩ = normalize_row (rows.get ⟨i, hi⟩)) := by
  refine ⟨?_, ?_, ?_, ?_⟩
  · intro rows
    simp [ensure_notes_schema]
  · intro rows
    rw [ensure_notes_schema, ensure_notes_schema, List.map_map]
    apply List.map_congr_left
    intro r _
    exact normalize_row_idem r
  · intro r
    refine ⟨rfl, rfl, rfl, rfl, rfl, rfl, ?_, ?_, ?_, ?_, ?_, ?_, ?_, ?_, ?_, ?_, ?_, ?_, ?_, ?_, ?_⟩
    · intro v hv hcv
      show (match r.status with
        | some v => if STATUSES.contains v then some v else some "todo"
        | none => some "todo") = some v
      rw [hv]
      show (if STATUSES.contains v = true then some v else some "todo") = some v
      rw [if_pos hcv]
    · intro v hv hcv
      show (match r.status with
        | some v => if STATUSES.contains v then some v else some "todo"
        | none => some "todo") = some "todo"
      rw [hv]
      show (if STATUSES.contains v = true then some v else some "todo") = some "todo"
      rw [if_neg (by rw [hcv]; exact Bool.false_ne_true)]
    · intro hv
      show (match r.status with
        | some v => if STATUSES.contains v then some v else some "todo"
        | none => some "todo") = some "todo"
      rw [hv]
    · intro v hv hcv
      show (match r.priority with
        | some v => if PRIORITIES.contains v then some v else some "medium"
        | none => some "medium") = some v
      rw [hv]
      show (if PRIORITIES.contains v = true then some v else some "medium") = some v
      rw [if_pos hcv]
    · intro v hv hcv
      show (match r.priority with
        | some v => if PRIORITIES.contains v then some v else some "medium"
        | none => some "medium") = some "medium"
      rw [hv]
      show (if PRIORITIES.contains v = true then some v else some "medium") = some "medium"
      rw [if_neg (by rw [hcv]; exact Bool.false_ne_true)]
    · intro hv
      show (match r.priority with
        | some v => if PRIORITIES.contains v then some v else some "medium"
        | none => some "medium") = some "medium"
      rw [hv]
    · intro hv
      show (match r.category with
        | none => some "general"
        | some c => if sqlite_trim c = "" then some "general" else some (sqlite_trim c))
        = some "general"
      rw [hv]
    · intro c hv hb
      show (match r.category with
        | none => some "general"
        | some c => if sqlite_trim c = "" then some "general" else some (sqlite_trim c))
        = some "general"
      rw [hv]
      show (if sqlite_trim c = "" then some "general" else some (sqlite_trim c)) = some "general"
      rw [if_pos hb]
    · intro c hv hb
      show (match r.category with
        | none => some "general"
        | some c => if sqlite_trim c = "" then some "general" else some (sqlite_trim c))
        = some (sqlite_trim c)
      rw [hv]
      show (if sqlite_trim c = "" then some "general" else some (sqlite_trim c))
        = some (sqlite_trim c)
      rw [if_neg hb]
    · intro hv
      show (match r.is_pinned with | none => some 0 | some k => some k) = some 0
      rw [hv]
    · intro k hv
      show (match r.is_pinned with | none => some 0 | some k => some k) = some k
      rw [hv]
    · intro hv
      show (match r.is_archived with | none => some 0 | some k => some k) = some 0
      rw [hv]
    · intro k hv
      show (match r.is_archived with | none => some 0 | some k => some k) = some k
      rw [hv]
    · intro hv
      show (match r.is_deleted with | none => some 0 | some k => some k) = some 0
      rw [hv]
    · intro k hv
      show (match r.is_deleted with | none => some 0 | some k => some k) = some k
      rw [hv]
  · intro rows i hi hi'
    simp [ensure_notes_schema]

/-- Witness for C9: on a legacy row with NULL category, NULL priority, NULL
flags and the out-of-range status "open", one pass stores the defaults, keeps
the stored archive flag, and a second pass is a no-op. -/
theorem ensure_notes_schema_spec_witness :
    (ensure_notes_schema [w_raw_row]).length = 1 ∧
    ensure_notes_schema (ensure_notes_schema [w_raw_row]) = ensure_notes_schema [w_raw_row] ∧
    (normalize_row w_raw_row).status = some "todo" ∧
    (normalize_row w_raw_row).category = some "general" ∧
    (normalize_row w_raw_row).is_pinned = some 0 ∧
    (normalize_row w_raw_row).is_archived = some 1 ∧
    (normalize_row w_raw_row).title = w_raw_row.title ∧
    (ensure_notes_schema [w_raw_row]).get ⟨0, by decide⟩ = normalize_row w_raw_row :=
  ⟨ensure_notes_schema_spec.1 [w_raw_row],
   ensure_notes_schema_spec.2.1 [w_raw_row],
   ((ensure_notes_schema_spec.2.2.1 w_raw_row).2.2.2.2.2.2.2.1) "open" rfl (by decide),
   (ensure_notes_schema_spec.2.2.1 w_raw_row).2.2.2.2.2.2.2.2.2.2.2.2.1 rfl,
   (ensure_notes_schema_spec.2.2.1 w_raw_row).2.2.2.2.2.2.2.2.2.2.2.2.2.2.2.1 rfl,
   (ensure_notes_schema_spec.2.2.1 w_raw_row).2.2.2.2.2.2.2.2.2.2.2.2.2.2.2.2.2.2.1 1 rfl,
   (ensure_notes_schema_spec.2.2.1 w_raw_row).2.1,
   ensure_notes_schema_spec.2.2.2 [w_raw_row] 0 (by decide) (by decide)⟩
